import Mathlib

/-!
# Verification of the Soccer-Yolo tracking and possession-analytics engine

Shallow embedding of `src/worker/tracking/advanced_tracker.py` and
`src/worker/analytics/possession_analyzer.py`.  Python floats are modelled
by `ℚ` (the code performs only field arithmetic and comparisons on them),
Python ints by `ℕ`/`ℤ`, Python lists by `List`, and the insertion-ordered
`dict` of live tracks by an association list kept in insertion order.
-/

namespace SoccerYolo

/-- An `[x, y, w, h]` bounding box, as passed around by the tracker. -/
structure Box where
  x : ℚ
  y : ℚ
  w : ℚ
  h : ℚ
deriving DecidableEq, Repr

/-- The `inter_area` local of `compute_iou`. -/
def inter_area (bbox1 bbox2 : Box) : ℚ :=
  let xi1 := max bbox1.x bbox2.x
  let yi1 := max bbox1.y bbox2.y
  let xi2 := min (bbox1.x + bbox1.w) (bbox2.x + bbox2.w)
  let yi2 := min (bbox1.y + bbox1.h) (bbox2.y + bbox2.h)
  max 0 (xi2 - xi1) * max 0 (yi2 - yi1)

/-- The `union_area` local of `compute_iou`:
`box1_area + box2_area - inter_area`. -/
def union_area (bbox1 bbox2 : Box) : ℚ :=
  bbox1.w * bbox1.h + bbox2.w * bbox2.h - inter_area bbox1 bbox2

/-- `AdvancedMultiObjectTracker.compute_iou`: intersection over union of two
`(x, y, w, h)` boxes, `0` when the union area is not positive. -/
def compute_iou (bbox1 bbox2 : Box) : ℚ :=
  if union_area bbox1 bbox2 > 0 then inter_area bbox1 bbox2 / union_area bbox1 bbox2
  else 0

/-- `np.mean` of a list of rationals (only applied to non-empty lists). -/
def listMean (l : List ℚ) : ℚ := l.sum / l.length

/-- Python `l[-2]`: the next-to-last element of a list, if it exists. -/
def penult {α : Type} (l : List α) : Option α :=
  match l.reverse with
  | _ :: b :: _ => some b
  | _ => none

/-- The `AdvancedTrack` object of `advanced_tracker.py`. -/
structure AdvancedTrack where
  track_id : ℕ
  bbox : Box
  score : ℚ
  frame_id : ℕ
  class_name : String
  last_update : ℕ
  history : List (Box × ℚ × ℕ)
  velocity : ℚ × ℚ
  age : ℕ
  confidence_history : List ℚ
  is_confirmed : Bool
  time_since_update : ℕ
  kf_x : ℚ
  kf_y : ℚ
  kf_vx : ℚ
  kf_vy : ℚ
deriving DecidableEq, Repr

/-- `AdvancedTrack.__init__`. -/
def AdvancedTrack.init (track_id : ℕ) (bbox : Box) (score : ℚ) (frame_id : ℕ)
    (class_name : String) : AdvancedTrack :=
  { track_id := track_id, bbox := bbox, score := score, frame_id := frame_id,
    class_name := class_name, last_update := frame_id,
    history := [(bbox, score, frame_id)], velocity := (0, 0), age := 1,
    confidence_history := [score], is_confirmed := false, time_since_update := 0,
    kf_x := bbox.x + bbox.w / 2, kf_y := bbox.y + bbox.h / 2,
    kf_vx := 0, kf_vy := 0 }

/-- `AdvancedTrack._update_kalman` (called on the state that already holds the
new `history` entry and the new `frame_id`). -/
def AdvancedTrack.updateKalman (t : AdvancedTrack) (bbox : Box) : AdvancedTrack :=
  let center_x := bbox.x + bbox.w / 2
  let center_y := bbox.y + bbox.h / 2
  let alpha : ℚ := 7/10
  let t1 := { t with kf_x := alpha * center_x + (1 - alpha) * t.kf_x,
                     kf_y := alpha * center_y + (1 - alpha) * t.kf_y }
  match penult t1.history with
  | some (pbox, _, pframe) =>
      let dt : ℤ := (t1.frame_id : ℤ) - (pframe : ℤ)
      if 0 < dt then
        let prev_center_x := pbox.x + pbox.w / 2
        let prev_center_y := pbox.y + pbox.h / 2
        { t1 with kf_vx := alpha * (center_x - prev_center_x) / (dt : ℚ) + (1 - alpha) * t1.kf_vx,
                  kf_vy := alpha * (center_y - prev_center_y) / (dt : ℚ) + (1 - alpha) * t1.kf_vy }
      else t1
  | none => t1

/-- The body of `AdvancedTrack.update` up to (and excluding) the final
confirmation rule: field updates, bounded confidence history, velocity and
Kalman refresh. -/
def AdvancedTrack.updateCore (t : AdvancedTrack) (bbox : Box) (score : ℚ)
    (frame_id : ℕ) : AdvancedTrack :=
  let t1 := { t with bbox := bbox, score := score, frame_id := frame_id,
                     last_update := frame_id,
                     history := t.history ++ [(bbox, score, frame_id)],
                     age := t.age + 1, time_since_update := 0 }
  let ch0 := t1.confidence_history ++ [score]
  let ch := if ch0.length > 10 then ch0.drop 1 else ch0
  let t2 := { t1 with confidence_history := ch }
  match penult t2.history with
  | some (pbox, _, pframe) =>
      let dt : ℤ := (frame_id : ℤ) - (pframe : ℤ)
      if 0 < dt then
        ({ t2 with velocity := ((bbox.x - pbox.x) / (dt : ℚ), (bbox.y - pbox.y) / (dt : ℚ)) }).updateKalman bbox
      else t2
  | none => t2

/-- `AdvancedTrack.update`: the core refresh, then the confirmation rule
(`age >= 3 and np.mean(confidence_history) > 0.5`). -/
def AdvancedTrack.update (t : AdvancedTrack) (bbox : Box) (score : ℚ)
    (frame_id : ℕ) : AdvancedTrack :=
  let t3 := t.updateCore bbox score frame_id
  if 3 ≤ t3.age ∧ 1/2 < listMean t3.confidence_history then
    { t3 with is_confirmed := true }
  else t3

/-- `AdvancedTrack.predict`. -/
def AdvancedTrack.predict (t : AdvancedTrack) (frame_id : ℕ) : Box :=
  let dt : ℤ := (frame_id : ℤ) - (t.frame_id : ℤ)
  if 0 < dt then
    { x := t.kf_x + t.kf_vx * (dt : ℚ) - t.bbox.w / 2,
      y := t.kf_y + t.kf_vy * (dt : ℚ) - t.bbox.h / 2,
      w := t.bbox.w, h := t.bbox.h }
  else t.bbox

/-- `AdvancedTrack.get_smoothed_bbox`. -/
def AdvancedTrack.get_smoothed_bbox (t : AdvancedTrack) : Box :=
  { x := t.kf_x - t.bbox.w / 2, y := t.kf_y - t.bbox.h / 2,
    w := t.bbox.w, h := t.bbox.h }

/-- `AdvancedTrack.is_active`. -/
def AdvancedTrack.is_active (t : AdvancedTrack) : Bool :=
  t.time_since_update < 10 && t.age > 0

/-- `AdvancedTrack.get_average_confidence`. -/
def AdvancedTrack.get_average_confidence (t : AdvancedTrack) : ℚ :=
  if t.confidence_history = [] then 0 else listMean t.confidence_history

/-- A detection dict `{'class': ..., 'bbox': ..., 'score': ...}` fed to
`AdvancedMultiObjectTracker.update`. -/
structure Detection where
  class_name : String
  bbox : Box
  score : ℚ
deriving DecidableEq, Repr

/-- A tracked-object dict emitted by the tracker. -/
structure TrackedObject where
  track_id : ℕ
  bbox : Box
  score : ℚ
  frame_id : ℕ
  class_name : String
  confidence : ℚ
deriving DecidableEq, Repr

/-- The mutable state of `AdvancedMultiObjectTracker`.  The live-track dict
is an association list in insertion order (Python dicts preserve insertion
order); `removed_tracks` models the removed-id set. -/
structure AdvancedMultiObjectTracker where
  track_thresh : ℚ
  match_thresh : ℚ
  max_time_lost : ℕ
  min_track_length : ℕ
  frame_id : ℕ
  track_id_count : ℕ
  tracks : List (ℕ × AdvancedTrack)
  lost_tracks : List (ℕ × AdvancedTrack)
  removed_tracks : List ℕ
deriving DecidableEq, Repr

/-- `AdvancedMultiObjectTracker.__init__`. -/
def AdvancedMultiObjectTracker.init (track_thresh match_thresh : ℚ)
    (max_time_lost min_track_length : ℕ) : AdvancedMultiObjectTracker :=
  { track_thresh := track_thresh, match_thresh := match_thresh,
    max_time_lost := max_time_lost, min_track_length := min_track_length,
    frame_id := 0, track_id_count := 0, tracks := [], lost_tracks := [],
    removed_tracks := [] }

/-- The tracker built with the constructor defaults
(`track_thresh=0.3, match_thresh=0.7, max_time_lost=15, min_track_length=3`). -/
def defaultTracker : AdvancedMultiObjectTracker :=
  AdvancedMultiObjectTracker.init (3/10) (7/10) 15 3

/-- `self.class_params[...]['match_thresh']` with the
`params.get('match_thresh', self.match_thresh)` fallback. -/
def class_params_match_thresh (class_name : String) (dflt : ℚ) : ℚ :=
  if class_name = "person" then 3/5
  else if class_name = "ball" then 4/5
  else dflt

/-- `self.class_params[...]['max_time_lost']` with the corresponding
fallback (these per-class values are defined by `__init__` but are never
read by `_handle_lost_tracks`). -/
def class_params_max_time_lost (class_name : String) (dflt : ℕ) : ℕ :=
  if class_name = "person" then 20
  else if class_name = "ball" then 10
  else dflt

/-- Row `i` of the cost matrix of `_match_tracks`:
`cost_matrix[i, j] = 1 - iou(smoothed_bbox, det_bboxes[j])`. -/
def costRow (t : AdvancedTrack) (det_bboxes : List Box) (j : ℕ) : ℚ :=
  1 - compute_iou t.get_smoothed_bbox (det_bboxes.getD j (Box.mk 0 0 0 0))

/-- One step of the inner loop of `_match_tracks`: keep the candidate `j`
when `iou > match_thresh and iou > best_iou`.  The accumulator is
`(best_match, best_iou)` with `best_match = -1` modelled as `none`. -/
def bestMatchStep (iouOf : ℕ → ℚ) (match_thresh : ℚ) (acc : Option ℕ × ℚ)
    (j : ℕ) : Option ℕ × ℚ :=
  if iouOf j > match_thresh ∧ iouOf j > acc.2 then (some j, iouOf j) else acc

/-- The inner loop of `_match_tracks` over the still-unmatched detection
indices, starting from `best_match = -1, best_iou = 0`. -/
def bestMatchFor (iouOf : ℕ → ℚ) (match_thresh : ℚ) (unmatched : List ℕ) :
    Option ℕ :=
  (unmatched.foldl (bestMatchStep iouOf match_thresh) (none, 0)).1

/-- The per-track body of `_match_tracks`: pick the best still-unmatched
detection for this track and, when one qualifies, record the pair and
remove the detection from the pool. -/
def match_step (det_bboxes : List Box) (match_thresh : ℚ)
    (acc : List (ℕ × ℕ) × List ℕ) (p : ℕ × AdvancedTrack) :
    List (ℕ × ℕ) × List ℕ :=
  let iouOf : ℕ → ℚ := fun j => 1 - costRow p.2 det_bboxes j
  match bestMatchFor iouOf match_thresh acc.2 with
  | some j => (acc.1 ++ [(p.1, j)], acc.2.erase j)
  | none => acc

/-- `AdvancedMultiObjectTracker._match_tracks`: greedy IoU matching of the
class's live tracks (in table order) against the detections; `det_scores`
is received but not used, as in the source. -/
def match_tracks (tracks : List (ℕ × AdvancedTrack)) (det_bboxes : List Box)
    (det_scores : List ℚ) (class_name : String) (match_thresh_dflt : ℚ) :
    List (ℕ × ℕ) × List ℕ :=
  if tracks.isEmpty then ([], List.range det_bboxes.length)
  else
    let match_thresh := class_params_match_thresh class_name match_thresh_dflt
    tracks.foldl (match_step det_bboxes match_thresh)
      (([] : List (ℕ × ℕ)), List.range det_bboxes.length)

/-- The tracked-object dict built for an emitted track. -/
def emit_tracked (track_id : ℕ) (t : AdvancedTrack) (frame_id : ℕ)
    (class_name : String) : TrackedObject :=
  { track_id := track_id, bbox := t.get_smoothed_bbox, score := t.score,
    frame_id := frame_id, class_name := class_name,
    confidence := t.get_average_confidence }

/-- The body of `Create new tracks for all detections` in
`_update_class_tracks` (the no-existing-tracks branch). -/
def create_track_step (class_name : String)
    (acc : List TrackedObject × AdvancedMultiObjectTracker) (det : Detection) :
    List TrackedObject × AdvancedMultiObjectTracker :=
  if det.score > acc.2.track_thresh then
    let track_id := acc.2.track_id_count
    let tr := AdvancedTrack.init track_id det.bbox det.score acc.2.frame_id class_name
    (acc.1 ++ [emit_tracked track_id tr acc.2.frame_id class_name],
     { acc.2 with track_id_count := track_id + 1,
                  tracks := acc.2.tracks ++ [(track_id, tr)] })
  else acc

/-- The body of `Update matched tracks` in `_update_class_tracks`: apply
`AdvancedTrack.update` to the matched track and emit it.  (The `none`
branch is unreachable: matched ids come from the live table; in Python the
dict access would raise.) -/
def apply_match_step (class_name : String) (det_bboxes : List Box)
    (det_scores : List ℚ)
    (acc : List TrackedObject × AdvancedMultiObjectTracker) (m : ℕ × ℕ) :
    List TrackedObject × AdvancedMultiObjectTracker :=
  match acc.2.tracks.lookup m.1 with
  | some tr =>
    let tr2 := tr.update (det_bboxes.getD m.2 (Box.mk 0 0 0 0))
                 (det_scores.getD m.2 0) acc.2.frame_id
    let s2 := { acc.2 with
      tracks := acc.2.tracks.map (fun p => if p.1 = m.1 then (p.1, tr2) else p) }
    (acc.1 ++ [emit_tracked m.1 tr2 s2.frame_id class_name], s2)
  | none => acc

/-- The body of `Create new tracks for unmatched detections` in
`_update_class_tracks`. -/
def create_unmatched_step (class_name : String) (det_bboxes : List Box)
    (det_scores : List ℚ)
    (acc : List TrackedObject × AdvancedMultiObjectTracker) (j : ℕ) :
    List TrackedObject × AdvancedMultiObjectTracker :=
  if det_scores.getD j 0 > acc.2.track_thresh then
    let track_id := acc.2.track_id_count
    let tr := AdvancedTrack.init track_id (det_bboxes.getD j (Box.mk 0 0 0 0))
                (det_scores.getD j 0) acc.2.frame_id class_name
    (acc.1 ++ [emit_tracked track_id tr acc.2.frame_id class_name],
     { acc.2 with track_id_count := track_id + 1,
                  tracks := acc.2.tracks ++ [(track_id, tr)] })
  else acc

/-- `AdvancedMultiObjectTracker._update_class_tracks`. -/
def update_class_tracks (s : AdvancedMultiObjectTracker)
    (detections : List Detection) (class_name : String) :
    List TrackedObject × AdvancedMultiObjectTracker :=
  if detections.isEmpty then ([], s)
  else
    let class_tracks := s.tracks.filter (fun p => p.2.class_name = class_name)
    if class_tracks.isEmpty then
      detections.foldl (create_track_step class_name) (([] : List TrackedObject), s)
    else
      let det_bboxes := detections.map (fun d => d.bbox)
      let det_scores := detections.map (fun d => d.score)
      let md := match_tracks class_tracks det_bboxes det_scores class_name s.match_thresh
      md.2.foldl (create_unmatched_step class_name det_bboxes det_scores)
        (md.1.foldl (apply_match_step class_name det_bboxes det_scores)
          (([] : List TrackedObject), s))

/-- `AdvancedMultiObjectTracker._predict_tracks`. -/
def predict_tracks (s : AdvancedMultiObjectTracker) : List TrackedObject :=
  (s.tracks.filter (fun p => p.2.is_active)).map (fun p =>
    { track_id := p.1, bbox := p.2.predict s.frame_id, score := p.2.score,
      frame_id := s.frame_id, class_name := p.2.class_name,
      confidence := p.2.get_average_confidence })

/-- The removal body of `_handle_lost_tracks`: record the id in the
removed set and delete it from the live table, unless already removed. -/
def remove_track_step (st : AdvancedMultiObjectTracker) (tid : ℕ) :
    AdvancedMultiObjectTracker :=
  if tid ∈ st.removed_tracks then st
  else { st with removed_tracks := st.removed_tracks ++ [tid],
                 tracks := st.tracks.filter (fun p => p.1 ≠ tid) }

/-- `AdvancedMultiObjectTracker._handle_lost_tracks`: collect the ids whose
`time_since_update` exceeds the tracker-wide `max_time_lost`, then delete
each not-yet-removed one, recording it in the removed set. -/
def handle_lost_tracks (s : AdvancedMultiObjectTracker) :
    AdvancedMultiObjectTracker :=
  let tracks_to_remove :=
    (s.tracks.filter (fun p => p.2.time_since_update > s.max_time_lost)).map (fun p => p.1)
  tracks_to_remove.foldl remove_track_step s

/-- The opening of `update`: advance the frame counter and bump every live
track's `time_since_update`. -/
def bump_tsu (s : AdvancedMultiObjectTracker) : AdvancedMultiObjectTracker :=
  { s with frame_id := s.frame_id + 1,
           tracks := s.tracks.map (fun p =>
             (p.1, { p.2 with time_since_update := p.2.time_since_update + 1 })) }

/-- `AdvancedMultiObjectTracker.update`: bump the frame counter and every
live track's `time_since_update`; with no detections, emit predictions;
otherwise run the per-class association rounds and the lost-track sweep. -/
def AdvancedMultiObjectTracker.update (s : AdvancedMultiObjectTracker)
    (detections : List Detection) :
    List TrackedObject × AdvancedMultiObjectTracker :=
  let s1 := bump_tsu s
  if detections.isEmpty then (predict_tracks s1, s1)
  else
    let person_detections := detections.filter (fun d => d.class_name = "person")
    let ball_detections := detections.filter (fun d => d.class_name = "ball")
    let r1 := if person_detections.isEmpty then (([] : List TrackedObject), s1)
              else update_class_tracks s1 person_detections "person"
    let r2 := if ball_detections.isEmpty then (([] : List TrackedObject), r1.2)
              else update_class_tracks r1.2 ball_detections "ball"
    (r1.1 ++ r2.1, handle_lost_tracks r2.2)

/-- The track/detection index pairs that one `_update_class_tracks` call
matches (empty when that call creates tracks only). -/
def uct_matched_pairs (s : AdvancedMultiObjectTracker)
    (detections : List Detection) (class_name : String) : List (ℕ × ℕ) :=
  if detections.isEmpty then []
  else
    let class_tracks := s.tracks.filter (fun p => p.2.class_name = class_name)
    if class_tracks.isEmpty then []
    else (match_tracks class_tracks (detections.map (fun d => d.bbox))
           (detections.map (fun d => d.score)) class_name s.match_thresh).1

/-- The ids of the tracks that `update s detections` matches to a detection
and updates (replaying the two per-class association rounds of the call). -/
def call_matched_ids (s : AdvancedMultiObjectTracker)
    (detections : List Detection) : List ℕ :=
  if detections.isEmpty then []
  else
    let s1 := bump_tsu s
    let person_detections := detections.filter (fun d => d.class_name = "person")
    let ball_detections := detections.filter (fun d => d.class_name = "ball")
    let s2 := if person_detections.isEmpty then s1
              else (update_class_tracks s1 person_detections "person").2
    (uct_matched_pairs s1 person_detections "person").map (fun m => m.1) ++
    (uct_matched_pairs s2 ball_detections "ball").map (fun m => m.1)

/-- Fold a sequence of `update` calls from a freshly constructed tracker
with the given constructor arguments. -/
def runTrackerP (track_thresh match_thresh : ℚ) (max_time_lost min_track_length : ℕ)
    (dss : List (List Detection)) : AdvancedMultiObjectTracker :=
  dss.foldl (fun s ds => (s.update ds).2)
    (AdvancedMultiObjectTracker.init track_thresh match_thresh max_time_lost min_track_length)

/-- Fold a sequence of `update` calls from the default-constructed tracker. -/
def runTracker (dss : List (List Detection)) : AdvancedMultiObjectTracker :=
  dss.foldl (fun s ds => (s.update ds).2) defaultTracker

/-- The ids of the live tracks, in table (insertion) order. -/
def liveIds (s : AdvancedMultiObjectTracker) : List ℕ :=
  s.tracks.map (fun p => p.1)

/-! ## Embedding of `src/worker/analytics/possession_analyzer.py`

The analyzer compares Euclidean distances (`np.sqrt(dx**2 + dy**2)`) only
against nonnegative thresholds and against each other, so since the square
root is strictly monotone on nonnegatives, every comparison is embedded on
squared distances against squared thresholds, and the `distance` stored in
a pass event is modelled by its square. -/

/-- Squared Euclidean distance; stands for
`BallPossessionAnalyzer._calculate_distance` squared. -/
def dist2 (pos1 pos2 : ℚ × ℚ) : ℚ :=
  (pos1.1 - pos2.1) ^ 2 + (pos1.2 - pos2.2) ^ 2

/-- Python `int(q)`: truncation toward zero. -/
def pyInt (q : ℚ) : ℤ :=
  if q < 0 then ⌈q⌉ else ⌊q⌋

/-- `BallPossessionAnalyzer._get_center`. -/
def get_center (bbox : Box) : ℚ × ℚ :=
  (bbox.x + bbox.w / 2, bbox.y + bbox.h / 2)

/-- A tracked-object dict as consumed by `update_tracks`
(`obj.get('track_id', -1)` is modelled by an `ℤ` field). -/
structure TObj where
  class_name : String
  bbox : Box
  score : ℚ
  track_id : ℤ
deriving DecidableEq, Repr

/-- An entry of `self.ball_tracks` / `self.player_tracks`. -/
structure TrackEntry where
  frame_id : ℕ
  bbox : Box
  center : ℚ × ℚ
  track_id : ℤ
  confidence : ℚ
deriving DecidableEq, Repr

/-- A possession span (`self.current_possession` and the entries of
`self.possession_events`); `end_frame` is `None` until the span closes. -/
structure Possession where
  player_id : ℤ
  start_frame : ℕ
  end_frame : Option ℕ
  duration : ℤ
  team : String
  positions : List (ℚ × ℚ)
deriving DecidableEq, Repr

/-- A pass-event dict (its `distance` field is modelled squared, see
above). -/
structure PassEvent where
  from_player : ℤ
  to_player : ℤ
  from_team : String
  to_team : String
  frame_id : ℕ
  distance2 : ℚ
  successful : Bool
deriving DecidableEq, Repr

/-- The mutable state of `BallPossessionAnalyzer`.  The
`defaultdict(float)` of team possession times is a total function with
default `0`. -/
structure PState where
  fps : ℚ
  possession_threshold : ℚ
  frame_threshold : ℤ
  ball_tracks : List TrackEntry
  player_tracks : List TrackEntry
  possession_events : List Possession
  current_possession : Option Possession
  possession_history : List Unit
  team_possession_time : String → ℚ
  total_possession_time : ℚ
  pass_events : List PassEvent
  pass_threshold_distance : ℚ
  pass_threshold_frames : ℕ

/-- `BallPossessionAnalyzer.__init__`. -/
def PState.init (fps possession_threshold : ℚ) : PState :=
  { fps := fps, possession_threshold := possession_threshold,
    frame_threshold := pyInt (possession_threshold * fps),
    ball_tracks := [], player_tracks := [], possession_events := [],
    current_possession := none, possession_history := [],
    team_possession_time := fun _ => 0, total_possession_time := 0,
    pass_events := [], pass_threshold_distance := 50,
    pass_threshold_frames := 5 }

/-- `BallPossessionAnalyzer._get_player_team`: average x of the player's
recorded centers, split at `field_width / 2` with `field_width = 1000`. -/
def get_player_team (s : PState) (player_id : ℤ) : String :=
  let player_positions :=
    (s.player_tracks.filter (fun p => p.track_id = player_id)).map (fun p => p.center)
  if player_positions = [] then "unknown"
  else
    let avg_x := listMean (player_positions.map (fun pos => pos.1))
    if avg_x < 1000 / 2 then "team_a" else "team_b"

/-- `BallPossessionAnalyzer._start_possession`. -/
def start_possession (s : PState) (player : TrackEntry) (frame_id : ℕ) : PState :=
  { s with current_possession :=
             some { player_id := player.track_id, start_frame := frame_id,
                    end_frame := none, duration := 0,
                    team := get_player_team s player.track_id,
                    positions := [player.center] } }

/-- `BallPossessionAnalyzer._update_possession`. -/
def update_possession (s : PState) (frame_id : ℕ) : PState :=
  match s.current_possession with
  | none => s
  | some c =>
    match s.player_tracks.find? (fun p =>
        p.frame_id = frame_id ∧ p.track_id = c.player_id) with
    | some player =>
      { s with current_possession :=
                 some { c with positions := c.positions ++ [player.center],
                               duration := (frame_id : ℤ) - (c.start_frame : ℤ) } }
    | none => s

/-- `BallPossessionAnalyzer._end_possession`: close the open span; append
it to the event log and bump the team's possession time only when its
duration reaches `frame_threshold`. -/
def end_possession (s : PState) (frame_id : ℕ) : PState :=
  match s.current_possession with
  | none => s
  | some c =>
    let c2 := { c with end_frame := some frame_id,
                       duration := (frame_id : ℤ) - (c.start_frame : ℤ) }
    if c2.duration ≥ s.frame_threshold then
      { s with possession_events := s.possession_events ++ [c2],
               team_possession_time := fun tm =>
                 if tm = c2.team then s.team_possession_time tm + (c2.duration : ℚ) / s.fps
                 else s.team_possession_time tm,
               total_possession_time := s.total_possession_time + (c2.duration : ℚ) / s.fps,
               current_possession := none }
    else { s with current_possession := none }

/-- The closest-player scan of `_analyze_possession`
(`min_distance = inf` is the `none` accumulator; the comparison is strict,
so the first player attaining the minimum wins). -/
def closestPlayer (s : PState) (ball_center : ℚ × ℚ) (frame_id : ℕ) :
    Option (TrackEntry × ℚ) :=
  s.player_tracks.foldl (fun acc player =>
    if player.frame_id = frame_id then
      let d2 := dist2 ball_center player.center
      match acc with
      | none => some (player, d2)
      | some best => if d2 < best.2 then some (player, d2) else acc
    else acc) none

/-- `BallPossessionAnalyzer._analyze_possession` (the 80 px proximity
threshold appears squared). -/
def analyze_possession (s : PState) (frame_id : ℕ) : PState :=
  match s.ball_tracks.getLast? with
  | none => s
  | some current_ball =>
    if s.player_tracks.isEmpty then s
    else
      match closestPlayer s current_ball.center frame_id with
      | some (closest_player, min_distance2) =>
        if min_distance2 < 80 ^ 2 then
          match s.current_possession with
          | none => start_possession s closest_player frame_id
          | some c =>
            if c.player_id ≠ closest_player.track_id then
              start_possession (end_possession s frame_id) closest_player frame_id
            else
              update_possession s frame_id
        else
          end_possession s frame_id
      | none =>
        end_possession s frame_id

/-- `p['end_frame']` of a logged span (always set when the span was
closed). -/
def endFrameZ (p : Possession) : ℤ :=
  ((p.end_frame.getD 0 : ℕ) : ℤ)

/-- The pass-event dict recorded by `_detect_passes`. -/
def mkPassEvent (cur nxt : Possession) (d2 : ℚ) : PassEvent :=
  { from_player := cur.player_id, to_player := nxt.player_id,
    from_team := cur.team, to_team := nxt.team,
    frame_id := cur.end_frame.getD 0, distance2 := d2, successful := true }

/-- `BallPossessionAnalyzer._detect_passes`: keep the spans whose end lies
strictly within `pass_threshold_frames` of the current frame, then record a
pass for every adjacent pair of that filtered list whose temporal gap is at
most `pass_threshold_frames` and whose (squared) spatial gap is at most the
(squared) `pass_threshold_distance`. -/
def detect_passes (s : PState) (frame_id : ℕ) : PState :=
  if s.possession_events.length < 2 then s
  else
    let recent := s.possession_events.filter (fun p =>
      (frame_id : ℤ) - endFrameZ p < (s.pass_threshold_frames : ℤ))
    let newPasses := (recent.zip recent.tail).filterMap (fun pr =>
      let time_between := (pr.2.start_frame : ℤ) - endFrameZ pr.1
      if time_between ≤ (s.pass_threshold_frames : ℤ) then
        let end_pos := pr.1.positions.getLast?.getD (0, 0)
        let start_pos := pr.2.positions.head?.getD (0, 0)
        let d2 := dist2 end_pos start_pos
        if d2 ≤ s.pass_threshold_distance ^ 2 then
          some (mkPassEvent pr.1 pr.2 d2)
        else none
      else none)
    { s with pass_events := s.pass_events ++ newPasses }

/-- `max(ball_tracks, key=lambda x: x['score'])`: Python `max` keeps the
first element attaining the maximum. -/
def pyMaxByScore (hd : TObj) (tl : List TObj) : TObj :=
  tl.foldl (fun best o => if o.score > best.score then o else best) hd

/-- The ball/player entry appended by `update_tracks`. -/
def mkEntry (o : TObj) (frame_id : ℕ) : TrackEntry :=
  { frame_id := frame_id, bbox := o.bbox, center := get_center o.bbox,
    track_id := o.track_id, confidence := o.score }

/-- `BallPossessionAnalyzer.update_tracks`. -/
def PState.update_tracks (s : PState) (tracked_objects : List TObj)
    (frame_id : ℕ) : PState :=
  let ball_tracks := tracked_objects.filter (fun o => o.class_name = "ball")
  let player_tracks := tracked_objects.filter (fun o => o.class_name = "person")
  let s1 :=
    match ball_tracks with
    | [] => s
    | hd :: tl =>
      { s with ball_tracks := s.ball_tracks ++ [mkEntry (pyMaxByScore hd tl) frame_id] }
  let s2 := player_tracks.foldl (fun st player =>
    { st with player_tracks := st.player_tracks ++ [mkEntry player frame_id] }) s1
  detect_passes (analyze_possession s2 frame_id) frame_id

/-- `BallPossessionAnalyzer.reset`. -/
def PState.reset (s : PState) : PState :=
  { s with ball_tracks := [], player_tracks := [], possession_events := [],
           current_possession := none, possession_history := [],
           team_possession_time := fun _ => 0, total_possession_time := 0,
           pass_events := [] }

/-- Fold a sequence of `update_tracks` calls from a freshly constructed
analyzer. -/
def runAnalyzer (fps possession_threshold : ℚ)
    (calls : List (List TObj × ℕ)) : PState :=
  calls.foldl (fun s c => s.update_tracks c.1 c.2)
    (PState.init fps possession_threshold)

/-- The dict returned by `get_possession_stats`. -/
structure PossessionStats where
  team_a_possession : ℚ
  team_b_possession : ℚ
  team_a_percentage : ℚ
  team_b_percentage : ℚ
  total_possession_time : ℚ
  possession_events : ℕ
  passes : ℕ
  current_possession : Option Possession
deriving DecidableEq, Repr

/-- The `recent_frames[frame_id]` bookkeeping of the synthetic branch of
`get_possession_stats`: the per-frame `{'team_a': _, 'team_b': _}` counters
keyed by frame id, in first-insertion order. -/
def bumpTeamCount (m : List (ℕ × ℕ × ℕ)) (fid : ℕ) (team : String) :
    List (ℕ × ℕ × ℕ) :=
  let m1 := if (m.lookup fid).isSome then m else m ++ [(fid, 0, 0)]
  m1.map (fun e =>
    if e.1 = fid then
      if team = "team_a" then (e.1, e.2.1 + 1, e.2.2)
      else if team = "team_b" then (e.1, e.2.1, e.2.2 + 1)
      else e
    else e)

/-- The final fallback dict of `get_possession_stats`. -/
def fallbackPossessionStats : PossessionStats :=
  { team_a_possession := 15, team_b_possession := 15,
    team_a_percentage := 50, team_b_percentage := 50,
    total_possession_time := 30, possession_events := 0, passes := 0,
    current_possession := none }

/-- `BallPossessionAnalyzer.get_possession_stats`: real data when any
possession time was accumulated, otherwise synthetic activity-based data
when player entries exist, otherwise the balanced fallback. -/
def get_possession_stats (s : PState) : PossessionStats :=
  if s.total_possession_time > 0 then
    let team_a_time := s.team_possession_time "team_a"
    let team_b_time := s.team_possession_time "team_b"
    { team_a_possession := team_a_time, team_b_possession := team_b_time,
      team_a_percentage := team_a_time / s.total_possession_time * 100,
      team_b_percentage := team_b_time / s.total_possession_time * 100,
      total_possession_time := s.total_possession_time,
      possession_events := s.possession_events.length,
      passes := s.pass_events.length,
      current_possession := s.current_possession }
  else if s.player_tracks ≠ [] then
    let recent100 := s.player_tracks.drop (s.player_tracks.length - 100)
    let recent_frames := recent100.foldl (fun m player =>
      bumpTeamCount m player.frame_id (get_player_team s player.track_id)) []
    let acc := recent_frames.foldl (fun (acc : ℚ × ℚ × ℕ) e =>
      let total_players : ℕ := e.2.1 + e.2.2
      if 0 < total_players then
        (acc.1 + (e.2.1 : ℚ) / (total_players : ℚ),
         acc.2.1 + (e.2.2 : ℚ) / (total_players : ℚ), acc.2.2 + 1)
      else acc) (0, 0, 0)
    if 0 < acc.2.2 then
      let team_a_ratio := acc.1 / (acc.2.2 : ℚ)
      let team_b_ratio := acc.2.1 / (acc.2.2 : ℚ)
      let total_time : ℚ := 30
      { team_a_possession := total_time * team_a_ratio,
        team_b_possession := total_time * team_b_ratio,
        team_a_percentage := team_a_ratio * 100,
        team_b_percentage := team_b_ratio * 100,
        total_possession_time := total_time,
        possession_events := s.possession_events.length,
        passes := s.pass_events.length,
        current_possession := s.current_possession }
    else fallbackPossessionStats
  else fallbackPossessionStats

/-- One entry of the synthetic `recent_passes` list of `get_pass_stats`
(its dict has a different shape from a real pass event). -/
structure SynthPass where
  from_player : ℤ
  to_player : ℤ
  successful : Bool
  timestamp : ℚ
  distance : ℚ
  team : String
deriving DecidableEq, Repr

/-- `recent_passes` holds either real pass events or synthetic entries. -/
inductive RecentPasses where
  | real (l : List PassEvent)
  | synth (l : List SynthPass)
deriving DecidableEq, Repr

/-- The dict returned by `get_pass_stats`. -/
structure PassStats where
  total_passes : ℕ
  successful_passes : ℕ
  pass_success_rate : ℚ
  team_a_passes : ℕ
  team_b_passes : ℕ
  recent_passes : RecentPasses
deriving DecidableEq, Repr

/-- Ambient Python effects used by the synthetic branch of
`get_pass_stats`: the wall clock (`time.time()`), the
`np.random.uniform(50, 200)` draws, and the unspecified iteration order of
a Python `set` of ints. -/
structure PyEnv where
  now : ℚ
  rand : ℕ → ℚ
  setList : List ℤ → List ℤ

/-- The final fallback dict of `get_pass_stats`. -/
def fallbackPassStats : PassStats :=
  { total_passes := 8, successful_passes := 6, pass_success_rate := 75,
    team_a_passes := 4, team_b_passes := 4,
    recent_passes := RecentPasses.real [] }

/-- `BallPossessionAnalyzer.get_pass_stats`: real data when pass events
exist, otherwise synthetic data when player entries exist, otherwise the
minimal fallback. -/
def get_pass_stats (env : PyEnv) (s : PState) : PassStats :=
  if s.pass_events ≠ [] then
    let n := s.pass_events.length
    let successful_passes := (s.pass_events.filter (fun p => p.successful)).length
    { total_passes := n, successful_passes := successful_passes,
      pass_success_rate := (successful_passes : ℚ) / (n : ℚ) * 100,
      team_a_passes := (s.pass_events.filter (fun p => p.from_team = "team_a")).length,
      team_b_passes := (s.pass_events.filter (fun p => p.from_team = "team_b")).length,
      recent_passes := RecentPasses.real
        (if n ≥ 10 then s.pass_events.drop (n - 10) else s.pass_events) }
  else if s.player_tracks ≠ [] then
    let unique_players := env.setList (s.player_tracks.map (fun p => p.track_id))
    let num_players := unique_players.length
    if num_players ≥ 2 then
      let base_passes := max 5 (num_players * 2)
      let successful_passes := (pyInt ((base_passes : ℚ) * (17/20))).toNat
      let team_a_passes := (pyInt ((base_passes : ℚ) * (9/20))).toNat
      let recent_passes := (List.range (min 5 base_passes)).map (fun i =>
        { from_player := unique_players.getD (i % num_players) 0,
          to_player := unique_players.getD ((i + 1) % num_players) 0,
          successful := decide (i < successful_passes),
          timestamp := env.now - (i : ℚ) * 2,
          distance := env.rand i,
          team := if i % 2 = 0 then "team_a" else "team_b" : SynthPass })
      { total_passes := base_passes, successful_passes := successful_passes,
        pass_success_rate := (successful_passes : ℚ) / (base_passes : ℚ) * 100,
        team_a_passes := team_a_passes,
        team_b_passes := base_passes - team_a_passes,
        recent_passes := RecentPasses.synth recent_passes }
    else fallbackPassStats
  else fallbackPassStats

/-! ## Claim-side definitions and concrete scenarios -/

/-- The greedy pick as the spec words it: the first still-unmatched
detection attaining the highest IoU, together with that IoU. -/
def specBestDetection (iouOf : ℕ → ℚ) (unmatched : List ℕ) :
    Option (ℕ × ℚ) :=
  unmatched.foldl (fun acc j =>
    match acc with
    | none => some (j, iouOf j)
    | some best => if iouOf j > best.2 then some (j, iouOf j) else acc) none

/-- The association round as the spec words it: visit the tracks in list
order; each track takes the still-unmatched detection of highest IoU
against its smoothed box, the match accepted only when that IoU strictly
exceeds the match threshold, and an accepted detection leaves the pool. -/
def spec_match_tracks (tracks : List (ℕ × AdvancedTrack))
    (det_bboxes : List Box) (match_thresh : ℚ) : List (ℕ × ℕ) × List ℕ :=
  tracks.foldl (fun acc p =>
    match specBestDetection
        (fun j => compute_iou p.2.get_smoothed_bbox (det_bboxes.getD j (Box.mk 0 0 0 0)))
        acc.2 with
    | some best =>
      if best.2 > match_thresh then (acc.1 ++ [(p.1, best.1)], acc.2.erase best.1)
      else acc
    | none => acc)
    (([] : List (ℕ × ℕ)), List.range det_bboxes.length)

/-- The structural invariant of a reachable tracker state: live ids are
strictly increasing in table order, every live or removed id is below the
id counter, and no live id is recorded as removed. -/
def TrackerInv (s : AdvancedMultiObjectTracker) : Prop :=
  List.Pairwise (· < ·) (liveIds s) ∧
  (∀ i ∈ liveIds s, i < s.track_id_count) ∧
  (∀ i ∈ s.removed_tracks, i < s.track_id_count) ∧
  (∀ i ∈ liveIds s, i ∉ s.removed_tracks)

/-- How one association phase relates the tracker state it started from to
the state it produces: all tunables, the frame counter and the removed set
are untouched, and the live table is the old one (with entries possibly
updated in place) followed by freshly created tracks whose ids ascend from
the old id counter. -/
def PhaseExtends (s0 st : AdvancedMultiObjectTracker) : Prop :=
  st.track_thresh = s0.track_thresh ∧
  st.match_thresh = s0.match_thresh ∧
  st.max_time_lost = s0.max_time_lost ∧
  st.frame_id = s0.frame_id ∧
  st.removed_tracks = s0.removed_tracks ∧
  s0.track_id_count ≤ st.track_id_count ∧
  ∃ newIds : List ℕ,
    liveIds st = liveIds s0 ++ newIds ∧
    List.Pairwise (· < ·) newIds ∧
    ∀ i ∈ newIds, s0.track_id_count ≤ i ∧ i < st.track_id_count

/-- An axis-aligned square box given by its center and half-width. -/
def boxAt (cx cy half : ℚ) : Box :=
  { x := cx - half, y := cy - half, w := 2 * half, h := 2 * half }

/-- Player A: a person reported at center `(0, 0)` with track id 1. -/
def playerA : TObj := { class_name := "person", bbox := boxAt 0 0 5, score := 9/10, track_id := 1 }

/-- Player B: a person reported at center `(30, 0)` with track id 2. -/
def playerB : TObj := { class_name := "person", bbox := boxAt 30 0 5, score := 9/10, track_id := 2 }

/-- Player B placed 80 px from player A instead. -/
def playerB80 : TObj := { class_name := "person", bbox := boxAt 80 0 5, score := 9/10, track_id := 2 }

/-- The ball reported at player A's position. -/
def ballNearA : TObj := { class_name := "ball", bbox := boxAt 0 0 1, score := 9/10, track_id := 7 }

/-- The ball reported at player B's position. -/
def ballAtB : TObj := { class_name := "ball", bbox := boxAt 30 0 1, score := 9/10, track_id := 7 }

/-- The ball reported at the 80 px-distant player B's position. -/
def ballAtB80 : TObj := { class_name := "ball", bbox := boxAt 80 0 1, score := 9/10, track_id := 7 }

/-- The ball reported far away from both players. -/
def ballFar : TObj := { class_name := "ball", bbox := boxAt 2000 2000 5, score := 9/10, track_id := 7 }

/-- A default-parameter (`fps = 30`, threshold `0.5 s`) run producing two
consecutively logged spans: player A holds frames 1–18, the ball is loose
for frames 18–20, player B holds from frame 21 (= 18 + 3, 30 px from A) to
frame 37. -/
def passScenarioCalls : List (List TObj × ℕ) :=
  ((List.range 17).map (fun i => ([playerA, playerB, ballNearA], i + 1))) ++
  [([playerA, playerB, ballFar], 18), ([playerA, playerB, ballFar], 19),
   ([playerA, playerB, ballFar], 20)] ++
  ((List.range 16).map (fun i => ([playerA, playerB, ballAtB], i + 21))) ++
  [([playerA, playerB, ballFar], 37)]

/-- The final analyzer state of the default-parameter pass scenario. -/
def passScenarioState : PState := runAnalyzer 30 (1/2) passScenarioCalls

/-- `fps = 2` run (so `frame_threshold = 1`): span for A over frames 1–3,
span for B over frames 6–7 (gap 3 frames, 30 px). -/
def shortSpanPassCalls : List (List TObj × ℕ) :=
  [([playerA, playerB, ballNearA], 1), ([playerA, playerB, ballNearA], 2),
   ([playerA, playerB, ballFar], 3), ([playerA, playerB, ballFar], 4),
   ([playerA, playerB, ballFar], 5), ([playerA, playerB, ballAtB], 6),
   ([playerA, playerB, ballFar], 7)]

/-- The final analyzer state of the `fps = 2` pass run. -/
def shortSpanPassState : PState := runAnalyzer 2 (1/2) shortSpanPassCalls

/-- Same `fps = 2` run with a 6-frame gap instead (B holds frames 9–10). -/
def shortSpanGapCalls : List (List TObj × ℕ) :=
  [([playerA, playerB, ballNearA], 1), ([playerA, playerB, ballNearA], 2),
   ([playerA, playerB, ballFar], 3), ([playerA, playerB, ballFar], 4),
   ([playerA, playerB, ballFar], 5), ([playerA, playerB, ballFar], 6),
   ([playerA, playerB, ballFar], 7), ([playerA, playerB, ballFar], 8),
   ([playerA, playerB, ballAtB], 9), ([playerA, playerB, ballFar], 10)]

/-- The final analyzer state of the 6-frame-gap run. -/
def shortSpanGapState : PState := runAnalyzer 2 (1/2) shortSpanGapCalls

/-- Same `fps = 2` run with B placed 80 px away instead. -/
def shortSpanFarCalls : List (List TObj × ℕ) :=
  [([playerA, playerB80, ballNearA], 1), ([playerA, playerB80, ballNearA], 2),
   ([playerA, playerB80, ballFar], 3), ([playerA, playerB80, ballFar], 4),
   ([playerA, playerB80, ballFar], 5), ([playerA, playerB80, ballAtB80], 6),
   ([playerA, playerB80, ballFar], 7)]

/-- The final analyzer state of the 80 px run. -/
def shortSpanFarState : PState := runAnalyzer 2 (1/2) shortSpanFarCalls

/-- `fps = 3`, threshold `0.5 s` run in which a span of duration 1 frame
closes (A holds frame 1, the ball leaves at frame 2). -/
def fractionalThresholdState : PState :=
  runAnalyzer 3 (1/2) [([playerA, ballNearA], 1), ([playerA, ballFar], 2)]

/-- A person detection for the tracker runs. -/
def personDet : Detection := { class_name := "person", bbox := boxAt 0 0 5, score := 9/10 }

/-- A ball detection far from the person. -/
def ballDet : Detection := { class_name := "ball", bbox := boxAt 100 100 3, score := 9/10 }

/-- One call with a person detection, then `n` calls with only a ball
detection, so the person track is never matched again. -/
def lostPersonCalls (n : ℕ) : List (List Detection) :=
  [personDet] :: (List.range n).map (fun _ => [ballDet])

/-- A concrete open possession span used to witness span closing. -/
def possessionWitnessSpan : Possession :=
  { player_id := 1, start_frame := 1, end_frame := none, duration := 0,
    team := "team_a", positions := [(0, 0)] }

/-- A fresh default analyzer with that span open. -/
def possessionWitnessState : PState :=
  { PState.init 30 (1/2) with current_possession := some possessionWitnessSpan }

/-- A small tracker state holding a stale person track (16 frames unseen)
and a fresh ball track, used to witness the lost-track sweep. -/
def sweepWitnessState : AdvancedMultiObjectTracker :=
  { defaultTracker with
    track_id_count := 2,
    tracks := [(0, { AdvancedTrack.init 0 (boxAt 0 0 5) (9/10) 1 "person" with
                     time_since_update := 16 }),
               (1, AdvancedTrack.init 1 (boxAt 9 9 3) (9/10) 1 "ball")] }

/-! ## IoU safety (C7) -/

lemma inter_area_nonneg (bbox1 bbox2 : Box) : 0 ≤ inter_area bbox1 bbox2 :=
  mul_nonneg (le_max_left 0 _) (le_max_left 0 _)

lemma inter_area_le_areas (bbox1 bbox2 : Box) :
    inter_area bbox1 bbox2 = 0 ∨
    (inter_area bbox1 bbox2 ≤ bbox1.w * bbox1.h ∧
     inter_area bbox1 bbox2 ≤ bbox2.w * bbox2.h) := by
  unfold inter_area
  dsimp only
  set iw := min (bbox1.x + bbox1.w) (bbox2.x + bbox2.w) - max bbox1.x bbox2.x with hiw
  set ih := min (bbox1.y + bbox1.h) (bbox2.y + bbox2.h) - max bbox1.y bbox2.y with hih
  rcases le_or_lt (max 0 iw * max 0 ih) 0 with h | h
  · exact Or.inl (le_antisymm h (mul_nonneg (le_max_left 0 _) (le_max_left 0 _)))
  · right
    have hfac := mul_pos_iff.mp h
    rcases hfac with ⟨h1, h2⟩ | ⟨h1, _⟩
    · have hiw0 : (0 : ℚ) ≤ iw := by
        by_contra hc
        push_neg at hc
        rw [max_eq_left hc.le] at h1
        exact lt_irrefl 0 h1
      have hih0 : (0 : ℚ) ≤ ih := by
        by_contra hc
        push_neg at hc
        rw [max_eq_left hc.le] at h2
        exact lt_irrefl 0 h2
      rw [max_eq_right hiw0, max_eq_right hih0]
      have hw1 : iw ≤ bbox1.w := by
        rw [hiw]
        have := min_le_left (bbox1.x + bbox1.w) (bbox2.x + bbox2.w)
        have := le_max_left bbox1.x bbox2.x
        linarith
      have hw2 : iw ≤ bbox2.w := by
        rw [hiw]
        have := min_le_right (bbox1.x + bbox1.w) (bbox2.x + bbox2.w)
        have := le_max_right bbox1.x bbox2.x
        linarith
      have hh1 : ih ≤ bbox1.h := by
        rw [hih]
        have := min_le_left (bbox1.y + bbox1.h) (bbox2.y + bbox2.h)
        have := le_max_left bbox1.y bbox2.y
        linarith
      have hh2 : ih ≤ bbox2.h := by
        rw [hih]
        have := min_le_right (bbox1.y + bbox1.h) (bbox2.y + bbox2.h)
        have := le_max_right bbox1.y bbox2.y
        linarith
      constructor
      · exact mul_le_mul hw1 hh1 hih0 (le_trans hiw0 hw1)
      · exact mul_le_mul hw2 hh2 hih0 (le_trans hiw0 hw2)
    · exact absurd h1 (not_lt.mpr (le_max_left 0 _))

lemma inter_area_of_degenerate (bbox1 bbox2 : Box)
    (h : bbox1.w ≤ 0 ∨ bbox1.h ≤ 0 ∨ bbox2.w ≤ 0 ∨ bbox2.h ≤ 0) :
    inter_area bbox1 bbox2 = 0 := by
  unfold inter_area
  dsimp only
  rcases h with h | h | h | h
  · have hx : min (bbox1.x + bbox1.w) (bbox2.x + bbox2.w) - max bbox1.x bbox2.x ≤ 0 := by
      have := min_le_left (bbox1.x + bbox1.w) (bbox2.x + bbox2.w)
      have := le_max_left bbox1.x bbox2.x
      linarith
    rw [max_eq_left hx, zero_mul]
  · have hy : min (bbox1.y + bbox1.h) (bbox2.y + bbox2.h) - max bbox1.y bbox2.y ≤ 0 := by
      have := min_le_left (bbox1.y + bbox1.h) (bbox2.y + bbox2.h)
      have := le_max_left bbox1.y bbox2.y
      linarith
    rw [max_eq_left hy, mul_zero]
  · have hx : min (bbox1.x + bbox1.w) (bbox2.x + bbox2.w) - max bbox1.x bbox2.x ≤ 0 := by
      have := min_le_right (bbox1.x + bbox1.w) (bbox2.x + bbox2.w)
      have := le_max_right bbox1.x bbox2.x
      linarith
    rw [max_eq_left hx, zero_mul]
  · have hy : min (bbox1.y + bbox1.h) (bbox2.y + bbox2.h) - max bbox1.y bbox2.y ≤ 0 := by
      have := min_le_right (bbox1.y + bbox1.h) (bbox2.y + bbox2.h)
      have := le_max_right bbox1.y bbox2.y
      linarith
    rw [max_eq_left hy, mul_zero]

/-- **C7.** `compute_iou` always lands in `[0, 1]` without raising; it is
`0` whenever the union area is not positive (the division is guarded), and
a box of non-positive width or height forces the result `0`, so a
degenerate detection can never pass the acceptance test
`iou > match_thresh` for the (nonnegative) match thresholds. -/
theorem compute_iou_safety (bbox1 bbox2 : Box) :
    (0 ≤ compute_iou bbox1 bbox2 ∧ compute_iou bbox1 bbox2 ≤ 1) ∧
    (union_area bbox1 bbox2 ≤ 0 → compute_iou bbox1 bbox2 = 0) ∧
    ((bbox1.w ≤ 0 ∨ bbox1.h ≤ 0 ∨ bbox2.w ≤ 0 ∨ bbox2.h ≤ 0) →
      compute_iou bbox1 bbox2 = 0 ∧
      ∀ match_thresh : ℚ, 0 ≤ match_thresh →
        ¬ match_thresh < compute_iou bbox1 bbox2) := by
  refine ⟨⟨?_, ?_⟩, ?_, ?_⟩
  · unfold compute_iou
    split
    · exact div_nonneg (inter_area_nonneg _ _) (le_of_lt (by assumption))
    · exact le_refl 0
  · unfold compute_iou
    split
    · rename_i hu
      rw [div_le_one hu]
      rcases inter_area_le_areas bbox1 bbox2 with h0 | ⟨h1, h2⟩
      · rw [h0]
        exact le_of_lt hu
      · unfold union_area
        unfold union_area at hu
        linarith
    · exact zero_le_one
  · intro h
    unfold compute_iou
    rw [if_neg (not_lt.mpr h)]
  · intro h
    have hz : compute_iou bbox1 bbox2 = 0 := by
      unfold compute_iou
      rw [inter_area_of_degenerate bbox1 bbox2 h]
      split
      · exact zero_div _
      · rfl
    exact ⟨hz, fun match_thresh hmt => by rw [hz]; exact not_lt.mpr hmt⟩

/-- Witness for C7 at a degenerate box (width `-1`) against the person
threshold `3/5`. -/
theorem compute_iou_safety_witness :
    compute_iou (Box.mk 0 0 (-1) 2) (Box.mk 0 0 2 2) = 0 ∧
    ¬ (3/5 : ℚ) < compute_iou (Box.mk 0 0 (-1) 2) (Box.mk 0 0 2 2) := by
  have h := (compute_iou_safety (Box.mk 0 0 (-1) 2) (Box.mk 0 0 2 2)).2.2
    (Or.inl (by norm_num))
  exact ⟨h.1, h.2 (3/5) (by norm_num)⟩

/-! ## Greedy matching refines the claimed association rule (C3) -/

lemma best_fold_rel (iouOf : ℕ → ℚ) (thresh : ℚ) (hth : 0 ≤ thresh)
    (l : List ℕ) :
    ∀ (bm : Option ℕ × ℚ) (sb : Option (ℕ × ℚ)),
      ((sb = none ∧ bm = (none, 0)) ∨
       (∃ k m, sb = some (k, m) ∧
         ((thresh < m ∧ bm = (some k, m)) ∨ (m ≤ thresh ∧ bm = (none, 0))))) →
      ((l.foldl (fun acc j =>
          match acc with
          | none => some (j, iouOf j)
          | some best => if iouOf j > best.2 then some (j, iouOf j) else acc) sb
            = none ∧
        l.foldl (bestMatchStep iouOf thresh) bm = (none, 0)) ∨
       (∃ k m,
        l.foldl (fun acc j =>
          match acc with
          | none => some (j, iouOf j)
          | some best => if iouOf j > best.2 then some (j, iouOf j) else acc) sb
            = some (k, m) ∧
         ((thresh < m ∧ l.foldl (bestMatchStep iouOf thresh) bm = (some k, m)) ∨
          (m ≤ thresh ∧ l.foldl (bestMatchStep iouOf thresh) bm = (none, 0))))) := by
  induction l with
  | nil => intro bm sb h; exact h
  | cons j l ih =>
    intro bm sb h
    apply ih
    rcases h with ⟨hsb, hbm⟩ | ⟨k, m, hsb, hcase⟩
    · subst hsb; subst hbm
      dsimp only [bestMatchStep]
      rcases lt_or_le thresh (iouOf j) with hj | hj
      · rw [if_pos ⟨hj, lt_of_le_of_lt hth hj⟩]
        exact Or.inr ⟨j, iouOf j, rfl, Or.inl ⟨hj, rfl⟩⟩
      · rw [if_neg (by rintro ⟨h1, -⟩; exact absurd h1 (not_lt.mpr hj))]
        exact Or.inr ⟨j, iouOf j, rfl, Or.inr ⟨hj, rfl⟩⟩
    · subst hsb
      rcases hcase with ⟨hm, hbm⟩ | ⟨hm, hbm⟩
      · subst hbm
        dsimp only [bestMatchStep]
        rcases lt_or_le m (iouOf j) with hj | hj
        · rw [if_pos hj, if_pos ⟨lt_trans hm hj, hj⟩]
          exact Or.inr ⟨j, iouOf j, rfl, Or.inl ⟨lt_trans hm hj, rfl⟩⟩
        · rw [if_neg (not_lt.mpr hj), if_neg (by rintro ⟨-, h2⟩; exact absurd h2 (not_lt.mpr hj))]
          exact Or.inr ⟨k, m, rfl, Or.inl ⟨hm, rfl⟩⟩
      · subst hbm
        dsimp only [bestMatchStep]
        rcases lt_or_le m (iouOf j) with hj | hj
        · rw [if_pos hj]
          rcases lt_or_le thresh (iouOf j) with hj2 | hj2
          · rw [if_pos ⟨hj2, lt_of_le_of_lt hth hj2⟩]
            exact Or.inr ⟨j, iouOf j, rfl, Or.inl ⟨hj2, rfl⟩⟩
          · rw [if_neg (by rintro ⟨h1, -⟩; exact absurd h1 (not_lt.mpr hj2))]
            exact Or.inr ⟨j, iouOf j, rfl, Or.inr ⟨hj2, rfl⟩⟩
        · rw [if_neg (not_lt.mpr hj),
              if_neg (by rintro ⟨h1, -⟩; exact absurd h1 (not_lt.mpr (le_trans hj hm)))]
          exact Or.inr ⟨k, m, rfl, Or.inr ⟨hm, rfl⟩⟩

lemma bestMatchFor_eq_spec (iouOf : ℕ → ℚ) (thresh : ℚ) (hth : 0 ≤ thresh)
    (l : List ℕ) :
    bestMatchFor iouOf thresh l =
      (match specBestDetection iouOf l with
       | some best => if best.2 > thresh then some best.1 else none
       | none => none) := by
  have h := best_fold_rel iouOf thresh hth l (none, 0) none (Or.inl ⟨rfl, rfl⟩)
  unfold bestMatchFor specBestDetection
  rcases h with ⟨hsb, hbm⟩ | ⟨k, m, hsb, hcase⟩
  · rw [hsb, hbm]
  · rw [hsb]
    rcases hcase with ⟨hm, hbm⟩ | ⟨hm, hbm⟩
    · rw [hbm]
      exact (if_pos hm).symm
    · rw [hbm]
      exact (if_neg (not_lt.mpr hm)).symm

lemma foldl_congr_fun {α β : Type} (f g : β → α → β)
    (h : ∀ b a, f b a = g b a) : ∀ (l : List α) (b : β),
    l.foldl f b = l.foldl g b := by
  intro l
  induction l with
  | nil => intro b; rfl
  | cons a l ih =>
    intro b
    rw [List.foldl_cons, List.foldl_cons, h, ih]

lemma match_tracks_eq_spec (tracks : List (ℕ × AdvancedTrack))
    (det_bboxes : List Box) (det_scores : List ℚ) (class_name : String)
    (dflt : ℚ) (hth : 0 ≤ class_params_match_thresh class_name dflt) :
    match_tracks tracks det_bboxes det_scores class_name dflt =
      spec_match_tracks tracks det_bboxes (class_params_match_thresh class_name dflt) := by
  unfold match_tracks spec_match_tracks
  split
  · rename_i hemp
    rw [List.isEmpty_iff] at hemp
    subst hemp
    rfl
  · dsimp only
    apply foldl_congr_fun
    intro acc p
    unfold match_step
    dsimp only
    have hfn : (fun j => 1 - costRow p.2 det_bboxes j) =
        (fun j => compute_iou p.2.get_smoothed_bbox (det_bboxes.getD j (Box.mk 0 0 0 0))) := by
      funext j
      unfold costRow
      ring
    rw [hfn, bestMatchFor_eq_spec _ _ hth]
    cases hsb : specBestDetection
        (fun j => compute_iou p.2.get_smoothed_bbox (det_bboxes.getD j (Box.mk 0 0 0 0)))
        acc.2 with
    | none => rfl
    | some best =>
      dsimp only
      by_cases hgt : best.2 > class_params_match_thresh class_name dflt
      · simp only [if_pos hgt]
      · simp only [if_neg hgt]

/-! ## Association-list helpers for the live-track table -/

lemma foldl_inv {α β : Type} (f : β → α → β) (P : β → Prop)
    (h : ∀ b a, P b → P (f b a)) : ∀ (l : List α) (b : β), P b → P (l.foldl f b) := by
  intro l
  induction l with
  | nil => intro b hb; exact hb
  | cons a l ih =>
    intro b hb
    rw [List.foldl_cons]
    exact ih _ (h b a hb)

lemma tl_map_value {β : Type} (l : List (ℕ × β)) (g : β → β) (tid : ℕ) :
    (l.map (fun p => (p.1, g p.2))).lookup tid = (l.lookup tid).map g := by
  induction l with
  | nil => rfl
  | cons p l ih =>
    obtain ⟨k, v⟩ := p
    by_cases h : tid = k
    · subst h
      simp [List.lookup_cons]
    · simp [List.lookup_cons, beq_eq_false_iff_ne.mpr h, ih]

lemma tl_append {β : Type} (l1 l2 : List (ℕ × β)) (tid : ℕ) :
    (l1 ++ l2).lookup tid =
      (match l1.lookup tid with
       | some v => some v
       | none => l2.lookup tid) := by
  rw [List.lookup_append]
  cases l1.lookup tid <;> rfl

lemma tl_ite_ne {β : Type} (l : List (ℕ × β)) (m : ℕ) (tr2 : β) (tid : ℕ)
    (h : tid ≠ m) :
    (l.map (fun p => if p.1 = m then (p.1, tr2) else p)).lookup tid =
      l.lookup tid := by
  induction l with
  | nil => rfl
  | cons p l ih =>
    obtain ⟨k, v⟩ := p
    by_cases hk : k = m
    · subst hk
      simp [List.lookup_cons, beq_eq_false_iff_ne.mpr h, ih]
    · by_cases htid : tid = k
      · subst htid
        simp [List.lookup_cons, hk]
      · simp [List.lookup_cons, beq_eq_false_iff_ne.mpr htid, hk, ih]

lemma tl_ite_eq {β : Type} (l : List (ℕ × β)) (m : ℕ) (tr2 : β) :
    (l.map (fun p => if p.1 = m then (p.1, tr2) else p)).lookup m =
      (l.lookup m).map (fun _ => tr2) := by
  induction l with
  | nil => rfl
  | cons p l ih =>
    obtain ⟨k, v⟩ := p
    by_cases hk : k = m
    · subst hk
      simp [List.lookup_cons]
    · have hm : m ≠ k := fun hh => hk hh.symm
      simp [List.lookup_cons, beq_eq_false_iff_ne.mpr hm, hk, ih]

lemma tl_isSome_iff {β : Type} (l : List (ℕ × β)) (tid : ℕ) :
    (l.lookup tid).isSome = true ↔ tid ∈ l.map (fun p => p.1) := by
  induction l with
  | nil => simp
  | cons p l ih =>
    obtain ⟨k, v⟩ := p
    by_cases h : tid = k
    · subst h
      simp [List.lookup_cons]
    · simp [List.lookup_cons, beq_eq_false_iff_ne.mpr h, ih, h]

lemma tl_mem {β : Type} (l : List (ℕ × β)) (tid : ℕ) (t : β)
    (h : l.lookup tid = some t) : (tid, t) ∈ l := by
  induction l with
  | nil => simp at h
  | cons p l ih =>
    obtain ⟨k, v⟩ := p
    by_cases hk : tid = k
    · subst hk
      simp [List.lookup_cons] at h
      subst h
      exact List.mem_cons_self _ _
    · rw [List.lookup_cons] at h
      rw [beq_eq_false_iff_ne.mpr hk] at h
      exact List.mem_cons_of_mem _ (ih h)

lemma tl_of_mem_nodup {β : Type} (l : List (ℕ × β)) (tid : ℕ) (t : β)
    (hnd : (l.map (fun p => p.1)).Nodup) (h : (tid, t) ∈ l) :
    l.lookup tid = some t := by
  induction l with
  | nil => simp at h
  | cons p l ih =>
    obtain ⟨k, v⟩ := p
    simp only [List.map_cons, List.nodup_cons] at hnd
    rcases List.mem_cons.mp h with heq | hmem
    · injection heq with heq1 heq2
      subst heq1
      subst heq2
      simp [List.lookup_cons]
    · have hk : tid ≠ k := by
        intro hh
        subst hh
        exact hnd.1 (List.mem_map.mpr ⟨(tid, t), hmem, rfl⟩)
      rw [List.lookup_cons, beq_eq_false_iff_ne.mpr hk]
      exact ih hnd.2 hmem

lemma tl_filter {β : Type} (l : List (ℕ × β)) (P : ℕ × β → Bool) (tid : ℕ)
    (hnd : (l.map (fun p => p.1)).Nodup) :
    (l.filter P).lookup tid =
      (match l.lookup tid with
       | some v => if P (tid, v) then some v else none
       | none => none) := by
  induction l with
  | nil => rfl
  | cons p l ih =>
    obtain ⟨k, v⟩ := p
    simp only [List.map_cons, List.nodup_cons] at hnd
    by_cases hk : tid = k
    · subst hk
      by_cases hp : P (tid, v)
      · simp [List.filter_cons, hp, List.lookup_cons]
      · have hnone : l.lookup tid = none := by
          cases hl : l.lookup tid with
          | none => rfl
          | some w =>
            exact absurd (List.mem_map.mpr ⟨(tid, w), tl_mem _ _ _ hl, rfl⟩) hnd.1
        simp only [List.filter_cons, hp, Bool.false_eq_true, if_false]
        rw [ih hnd.2, hnone, List.lookup_cons, beq_self_eq_true]
        simp [hp]
    · by_cases hp : P (k, v)
      · simp only [List.filter_cons, hp, if_true]
        rw [List.lookup_cons, List.lookup_cons, beq_eq_false_iff_ne.mpr hk]
        exact ih hnd.2
      · simp only [List.filter_cons, hp, Bool.false_eq_true, if_false]
        rw [List.lookup_cons, beq_eq_false_iff_ne.mpr hk]
        exact ih hnd.2

lemma tl_none_of_bound {β : Type} (l : List (ℕ × β)) (tid c : ℕ)
    (hb : ∀ i ∈ l.map (fun p => p.1), i < c) (h : c ≤ tid) :
    l.lookup tid = none := by
  cases hl : l.lookup tid with
  | none => rfl
  | some t =>
    have := hb tid (List.mem_map.mpr ⟨(tid, t), tl_mem _ _ _ hl, rfl⟩)
    omega

lemma map_fst_map_ite {β : Type} (l : List (ℕ × β)) (m : ℕ) (tr2 : β) :
    ((l.map (fun p => if p.1 = m then (p.1, tr2) else p)).map (fun p => p.1)) =
      l.map (fun p => p.1) := by
  rw [List.map_map]
  apply List.map_congr_left
  intro p _
  by_cases h : p.1 = m <;> simp [h]

lemma map_fst_map_value {β : Type} (l : List (ℕ × β)) (g : β → β) :
    ((l.map (fun p => (p.1, g p.2))).map (fun p => p.1)) =
      l.map (fun p => p.1) := by
  rw [List.map_map]
  rfl

lemma tl_single_ne {β : Type} (k : ℕ) (tr : β) (tid : ℕ) (h : tid ≠ k) :
    ([(k, tr)] : List (ℕ × β)).lookup tid = none := by
  simp [List.lookup_cons, beq_eq_false_iff_ne.mpr h]

lemma tl_append_single_ne {β : Type} (l : List (ℕ × β)) (k : ℕ) (tr : β)
    (tid : ℕ) (h : tid ≠ k) :
    (l ++ [(k, tr)]).lookup tid = l.lookup tid := by
  rw [tl_append]
  cases hl : l.lookup tid with
  | some v => rfl
  | none => exact tl_single_ne k tr tid h

/-! ## Shape facts about the greedy matcher -/

lemma bestMatchFor_mem (iouOf : ℕ → ℚ) (th : ℚ) :
    ∀ (l : List ℕ) (acc : Option ℕ × ℚ) (j : ℕ),
      (l.foldl (bestMatchStep iouOf th) acc).1 = some j →
      acc.1 = some j ∨ j ∈ l := by
  intro l
  induction l with
  | nil => intro acc j h; exact Or.inl h
  | cons a l ih =>
    intro acc j h
    rw [List.foldl_cons] at h
    rcases ih _ j h with h2 | h2
    · unfold bestMatchStep at h2
      split at h2
      · injection h2 with h3
        exact Or.inr (h3 ▸ List.mem_cons_self a l)
      · exact Or.inl h2
    · exact Or.inr (List.mem_cons_of_mem a h2)

lemma match_fold_shape (det_bboxes : List Box) (th : ℚ) (n : ℕ) :
    ∀ (tracks : List (ℕ × AdvancedTrack)) (acc : List (ℕ × ℕ) × List ℕ)
      (X : List ℕ),
      (acc.1.map (fun m => m.1)).Sublist X →
      (∀ j ∈ acc.2, j < n) →
      (∀ m ∈ acc.1, m.2 < n) →
      (((tracks.foldl (match_step det_bboxes th) acc).1.map
          (fun m => m.1)).Sublist (X ++ tracks.map (fun p => p.1))) ∧
      (∀ m ∈ (tracks.foldl (match_step det_bboxes th) acc).1, m.2 < n) := by
  intro tracks
  induction tracks with
  | nil =>
    intro acc X h1 h2 h3
    rw [List.foldl_nil]
    exact ⟨by simpa using h1, h3⟩
  | cons p tracks ih =>
    intro acc X h1 h2 h3
    rw [List.foldl_cons]
    have hstep : ((match_step det_bboxes th acc p).1.map
        (fun m => m.1)).Sublist (X ++ [p.1]) ∧
        (∀ j ∈ (match_step det_bboxes th acc p).2, j < n) ∧
        (∀ m ∈ (match_step det_bboxes th acc p).1, m.2 < n) := by
      unfold match_step
      dsimp only
      cases hb : bestMatchFor (fun j => 1 - costRow p.2 det_bboxes j) th acc.2 with
      | none =>
        exact ⟨h1.trans (List.sublist_append_left X [p.1]), h2, h3⟩
      | some j =>
        have hjmem : j ∈ acc.2 := by
          rcases bestMatchFor_mem _ _ _ _ _ hb with h | h
          · cases h
          · exact h
        dsimp only
        refine ⟨?_, ?_, ?_⟩
        · rw [List.map_append]
          exact h1.append (by simp)
        · intro j2 hj2
          exact h2 j2 (List.erase_subset j acc.2 hj2)
        · intro m hm
          rcases List.mem_append.mp hm with hm | hm
          · exact h3 m hm
          · rw [List.mem_singleton] at hm
            subst hm
            exact h2 j hjmem
    have := ih (match_step det_bboxes th acc p) (X ++ [p.1])
      hstep.1 hstep.2.1 hstep.2.2
    rw [List.append_assoc] at this
    exact ⟨by simpa using this.1, this.2⟩

lemma match_tracks_shape (tracks : List (ℕ × AdvancedTrack))
    (det_bboxes : List Box) (det_scores : List ℚ) (class_name : String)
    (dflt : ℚ) :
    (((match_tracks tracks det_bboxes det_scores class_name dflt).1.map
        (fun m => m.1)).Sublist (tracks.map (fun p => p.1))) ∧
    (∀ m ∈ (match_tracks tracks det_bboxes det_scores class_name dflt).1,
      m.2 < det_bboxes.length) := by
  unfold match_tracks
  split
  · constructor
    · exact List.nil_sublist _
    · intro m hm
      simp at hm
  · dsimp only
    have := match_fold_shape det_bboxes
      (class_params_match_thresh class_name dflt) det_bboxes.length tracks
      ([], List.range det_bboxes.length) []
      (List.nil_sublist _) (fun j hj => List.mem_range.mp hj)
      (fun m hm => absurd hm (List.not_mem_nil m))
    simpa using this

/-! ## Effect of one association phase on the tracker state -/

lemma PhaseExtends.refl (s : AdvancedMultiObjectTracker) : PhaseExtends s s :=
  ⟨rfl, rfl, rfl, rfl, rfl, le_refl _,
   [], (List.append_nil _).symm, List.Pairwise.nil, fun i hi => absurd hi (List.not_mem_nil i)⟩

lemma PhaseExtends.trans {s0 s1 s2 : AdvancedMultiObjectTracker}
    (h1 : PhaseExtends s0 s1) (h2 : PhaseExtends s1 s2) : PhaseExtends s0 s2 := by
  obtain ⟨a1, b1, c1, d1, e1, f1, n1, hn1, hp1, hb1⟩ := h1
  obtain ⟨a2, b2, c2, d2, e2, f2, n2, hn2, hp2, hb2⟩ := h2
  refine ⟨a2.trans a1, b2.trans b1, c2.trans c1, d2.trans d1, e2.trans e1,
    f1.trans f2, n1 ++ n2, ?_, ?_, ?_⟩
  · rw [hn2, hn1, List.append_assoc]
  · rw [List.pairwise_append]
    exact ⟨hp1, hp2, fun a ha b hb => lt_of_lt_of_le (hb1 a ha).2 (hb2 b hb).1⟩
  · intro i hi
    rcases List.mem_append.mp hi with hi | hi
    · exact ⟨(hb1 i hi).1, lt_of_lt_of_le (hb1 i hi).2 f2⟩
    · exact ⟨le_trans f1 (hb2 i hi).1, (hb2 i hi).2⟩

lemma phase_append_fresh (s0 st : AdvancedMultiObjectTracker)
    (tr : AdvancedTrack) (h : PhaseExtends s0 st) :
    PhaseExtends s0
      { st with track_id_count := st.track_id_count + 1,
                tracks := st.tracks ++ [(st.track_id_count, tr)] } := by
  refine PhaseExtends.trans h ?_
  refine ⟨rfl, rfl, rfl, rfl, rfl, Nat.le_succ _, [st.track_id_count], ?_, ?_, ?_⟩
  · show (st.tracks ++ [(st.track_id_count, tr)]).map (fun p => p.1) =
      st.tracks.map (fun p => p.1) ++ [st.track_id_count]
    rw [List.map_append]
    rfl
  · exact List.pairwise_singleton _ _
  · intro i hi
    rw [List.mem_singleton] at hi
    subst hi
    exact ⟨le_refl _, Nat.lt_succ_self _⟩

lemma create_track_step_phase (class_name : String) (s0 : AdvancedMultiObjectTracker)
    (acc : List TrackedObject × AdvancedMultiObjectTracker) (det : Detection)
    (h : PhaseExtends s0 acc.2) :
    PhaseExtends s0 (create_track_step class_name acc det).2 := by
  unfold create_track_step
  split
  · exact phase_append_fresh s0 acc.2 _ h
  · exact h

lemma apply_match_step_phase (class_name : String) (det_bboxes : List Box)
    (det_scores : List ℚ) (s0 : AdvancedMultiObjectTracker)
    (acc : List TrackedObject × AdvancedMultiObjectTracker) (m : ℕ × ℕ)
    (h : PhaseExtends s0 acc.2) :
    PhaseExtends s0 (apply_match_step class_name det_bboxes det_scores acc m).2 := by
  unfold apply_match_step
  cases hl : acc.2.tracks.lookup m.1 with
  | none => exact h
  | some tr =>
    dsimp only
    obtain ⟨a, b, c, d, e, f, n, hn, hp, hb⟩ := h
    refine ⟨a, b, c, d, e, f, n, ?_, hp, hb⟩
    show ((acc.2.tracks.map fun p => if p.1 = m.1 then (p.1, _) else p).map (fun p => p.1)) = _
    rw [map_fst_map_ite]
    exact hn

lemma create_unmatched_step_phase (class_name : String) (det_bboxes : List Box)
    (det_scores : List ℚ) (s0 : AdvancedMultiObjectTracker)
    (acc : List TrackedObject × AdvancedMultiObjectTracker) (j : ℕ)
    (h : PhaseExtends s0 acc.2) :
    PhaseExtends s0 (create_unmatched_step class_name det_bboxes det_scores acc j).2 := by
  unfold create_unmatched_step
  split
  · exact phase_append_fresh s0 acc.2 _ h
  · exact h

lemma uct_phase (s : AdvancedMultiObjectTracker) (detections : List Detection)
    (class_name : String) :
    PhaseExtends s (update_class_tracks s detections class_name).2 := by
  unfold update_class_tracks
  split
  · exact PhaseExtends.refl s
  · dsimp only
    split
    · exact foldl_inv _ (fun acc => PhaseExtends s acc.2)
        (fun acc det => create_track_step_phase class_name s acc det)
        detections ([], s) (PhaseExtends.refl s)
    · exact foldl_inv _ (fun acc => PhaseExtends s acc.2)
        (fun acc j => create_unmatched_step_phase class_name _ _ s acc j)
        _ _
        (foldl_inv _ (fun acc => PhaseExtends s acc.2)
          (fun acc m => apply_match_step_phase class_name _ _ s acc m)
          _ ([], s) (PhaseExtends.refl s))

/-! ## Per-id effect of the association-phase folds -/

lemma apply_fold_lookup_notmem (cn : String) (db : List Box) (dsc : List ℚ) :
    ∀ (ml : List (ℕ × ℕ)) (acc : List TrackedObject × AdvancedMultiObjectTracker)
      (tid : ℕ), tid ∉ ml.map (fun m => m.1) →
      ((ml.foldl (apply_match_step cn db dsc) acc).2.tracks.lookup tid =
        acc.2.tracks.lookup tid) ∧
      ((ml.foldl (apply_match_step cn db dsc) acc).2.frame_id = acc.2.frame_id) ∧
      ((ml.foldl (apply_match_step cn db dsc) acc).2.track_id_count =
        acc.2.track_id_count) := by
  intro ml
  induction ml with
  | nil => intro acc tid _; exact ⟨rfl, rfl, rfl⟩
  | cons m ml ih =>
    intro acc tid hnot
    rw [List.map_cons, List.mem_cons] at hnot
    push_neg at hnot
    rw [List.foldl_cons]
    cases hl : acc.2.tracks.lookup m.1 with
    | none =>
      have hstep : apply_match_step cn db dsc acc m = acc := by
        unfold apply_match_step
        rw [hl]
      rw [hstep]
      exact ih acc tid hnot.2
    | some tr =>
      have hstep : apply_match_step cn db dsc acc m =
          (acc.1 ++ [emit_tracked m.1
              (tr.update (db.getD m.2 (Box.mk 0 0 0 0)) (dsc.getD m.2 0)
                acc.2.frame_id) acc.2.frame_id cn],
           { acc.2 with tracks := acc.2.tracks.map (fun p =>
              if p.1 = m.1 then (p.1,
                tr.update (db.getD m.2 (Box.mk 0 0 0 0)) (dsc.getD m.2 0)
                  acc.2.frame_id) else p) }) := by
        unfold apply_match_step
        rw [hl]
      rw [hstep]
      obtain ⟨ih1, ih2, ih3⟩ := ih _ tid hnot.2
      refine ⟨?_, ih2, ih3⟩
      rw [ih1]
      exact tl_ite_ne _ _ _ _ hnot.1

lemma apply_fold_lookup_mem (cn : String) (db : List Box) (dsc : List ℚ) :
    ∀ (ml : List (ℕ × ℕ)) (acc : List TrackedObject × AdvancedMultiObjectTracker)
      (tid j : ℕ) (t : AdvancedTrack),
      (ml.map (fun m => m.1)).Nodup → (tid, j) ∈ ml →
      acc.2.tracks.lookup tid = some t →
      (ml.foldl (apply_match_step cn db dsc) acc).2.tracks.lookup tid =
        some (t.update (db.getD j (Box.mk 0 0 0 0)) (dsc.getD j 0)
          acc.2.frame_id) := by
  intro ml
  induction ml with
  | nil => intro acc tid j t _ hmem; simp at hmem
  | cons m ml ih =>
    intro acc tid j t hnd hmem hl
    rw [List.map_cons, List.nodup_cons] at hnd
    rw [List.foldl_cons]
    rcases List.mem_cons.mp hmem with heq | hmem2
    · subst heq
      have hstep : apply_match_step cn db dsc acc (tid, j) =
          (acc.1 ++ [emit_tracked tid
              (t.update (db.getD j (Box.mk 0 0 0 0)) (dsc.getD j 0)
                acc.2.frame_id) acc.2.frame_id cn],
           { acc.2 with tracks := acc.2.tracks.map (fun p =>
              if p.1 = tid then (p.1,
                t.update (db.getD j (Box.mk 0 0 0 0)) (dsc.getD j 0)
                  acc.2.frame_id) else p) }) := by
        unfold apply_match_step
        rw [hl]
      rw [hstep]
      have hnot : tid ∉ ml.map (fun m => m.1) := hnd.1
      obtain ⟨ih1, -, -⟩ := apply_fold_lookup_notmem cn db dsc ml _ tid hnot
      rw [ih1]
      dsimp only
      rw [tl_ite_eq, hl]
      rfl
    · have hne : m.1 ≠ tid := by
        intro hh
        exact hnd.1 (hh ▸ List.mem_map.mpr ⟨(tid, j), hmem2, rfl⟩)
      cases hl2 : acc.2.tracks.lookup m.1 with
      | none =>
        have hstep : apply_match_step cn db dsc acc m = acc := by
          unfold apply_match_step
          rw [hl2]
        rw [hstep]
        exact ih acc tid j t hnd.2 hmem2 hl
      | some tr =>
        have hstep : apply_match_step cn db dsc acc m =
            (acc.1 ++ [emit_tracked m.1
                (tr.update (db.getD m.2 (Box.mk 0 0 0 0)) (dsc.getD m.2 0)
                  acc.2.frame_id) acc.2.frame_id cn],
             { acc.2 with tracks := acc.2.tracks.map (fun p =>
                if p.1 = m.1 then (p.1,
                  tr.update (db.getD m.2 (Box.mk 0 0 0 0)) (dsc.getD m.2 0)
                    acc.2.frame_id) else p) }) := by
          unfold apply_match_step
          rw [hl2]
        rw [hstep]
        have hl3 : ({ acc.2 with tracks := acc.2.tracks.map (fun p =>
            if p.1 = m.1 then (p.1,
              tr.update (db.getD m.2 (Box.mk 0 0 0 0)) (dsc.getD m.2 0)
                acc.2.frame_id) else p) } :
            AdvancedMultiObjectTracker).tracks.lookup tid = some t := by
          dsimp only
          rw [tl_ite_ne _ _ _ _ (fun hh => hne hh.symm)]
          exact hl
        exact ih _ tid j t hnd.2 hmem2 hl3

lemma apply_fold_out (cn : String) (db : List Box) (dsc : List ℚ) :
    ∀ (ml : List (ℕ × ℕ)) (acc : List TrackedObject × AdvancedMultiObjectTracker),
      (∀ m ∈ ml, ((acc.2.tracks.lookup m.1).isSome = true)) →
      ((ml.foldl (apply_match_step cn db dsc) acc).1.map (fun o => o.track_id) =
        acc.1.map (fun o => o.track_id) ++ ml.map (fun m => m.1)) := by
  intro ml
  induction ml with
  | nil => intro acc _; simp
  | cons m ml ih =>
    intro acc hsome
    rw [List.foldl_cons]
    cases hl : acc.2.tracks.lookup m.1 with
    | none =>
      have := hsome m (List.mem_cons_self _ _)
      rw [hl] at this
      cases this
    | some tr =>
      have hstep : apply_match_step cn db dsc acc m =
          (acc.1 ++ [emit_tracked m.1
              (tr.update (db.getD m.2 (Box.mk 0 0 0 0)) (dsc.getD m.2 0)
                acc.2.frame_id) acc.2.frame_id cn],
           { acc.2 with tracks := acc.2.tracks.map (fun p =>
              if p.1 = m.1 then (p.1,
                tr.update (db.getD m.2 (Box.mk 0 0 0 0)) (dsc.getD m.2 0)
                  acc.2.frame_id) else p) }) := by
        unfold apply_match_step
        rw [hl]
      rw [hstep]
      have hsome2 : ∀ m2 ∈ ml,
          ((({ acc.2 with tracks := acc.2.tracks.map (fun p =>
              if p.1 = m.1 then (p.1,
                tr.update (db.getD m.2 (Box.mk 0 0 0 0)) (dsc.getD m.2 0)
                  acc.2.frame_id) else p) } :
            AdvancedMultiObjectTracker).tracks.lookup m2.1).isSome = true) := by
        intro m2 hm2
        dsimp only
        by_cases hh : m2.1 = m.1
        · rw [hh, tl_ite_eq, hl]
          rfl
        · rw [tl_ite_ne _ _ _ _ hh]
          exact hsome m2 (List.mem_cons_of_mem _ hm2)
      rw [ih _ hsome2]
      dsimp only
      rw [List.map_append]
      simp [emit_tracked]

lemma create_like_fold {α : Type} (cn : String)
    (step : (List TrackedObject × AdvancedMultiObjectTracker) → α →
      (List TrackedObject × AdvancedMultiObjectTracker))
    (hstep : ∀ acc x, step acc x = acc ∨
      ∃ tr : AdvancedTrack, tr.time_since_update = 0 ∧ tr.class_name = cn ∧
        step acc x =
          (acc.1 ++ [emit_tracked acc.2.track_id_count tr acc.2.frame_id cn],
           { acc.2 with track_id_count := acc.2.track_id_count + 1,
                        tracks := acc.2.tracks ++ [(acc.2.track_id_count, tr)] })) :
    ∀ (l : List α) (acc : List TrackedObject × AdvancedMultiObjectTracker),
      (∀ k ∈ liveIds acc.2, k < acc.2.track_id_count) →
      (∀ k ∈ liveIds (l.foldl step acc).2, k < (l.foldl step acc).2.track_id_count) ∧
      acc.2.track_id_count ≤ (l.foldl step acc).2.track_id_count ∧
      (∃ newIds, (l.foldl step acc).1.map (fun o => o.track_id) =
          acc.1.map (fun o => o.track_id) ++ newIds ∧
        List.Pairwise (· < ·) newIds ∧
        (∀ i ∈ newIds, acc.2.track_id_count ≤ i ∧
          i < (l.foldl step acc).2.track_id_count)) ∧
      (∀ i, acc.2.track_id_count ≤ i → i < (l.foldl step acc).2.track_id_count →
        ∃ t2, (l.foldl step acc).2.tracks.lookup i = some t2 ∧
          t2.time_since_update = 0 ∧ t2.class_name = cn) ∧
      (∀ tid t, tid < acc.2.track_id_count → acc.2.tracks.lookup tid = some t →
        (l.foldl step acc).2.tracks.lookup tid = some t) ∧
      (l.foldl step acc).2.frame_id = acc.2.frame_id := by
  intro l
  induction l with
  | nil =>
    intro acc hb
    rw [List.foldl_nil]
    refine ⟨hb, le_refl _, ⟨[], (List.append_nil _).symm, List.Pairwise.nil,
      fun i hi => absurd hi (List.not_mem_nil i)⟩, ?_, fun _ _ _ h => h, rfl⟩
    intro i h1 h2
    omega
  | cons x l ih =>
    intro acc hb
    rw [List.foldl_cons]
    rcases hstep acc x with heq | ⟨tr, htsu, hcls, heq⟩
    · rw [heq]
      exact ih acc hb
    · rw [heq]
      dsimp only
      have hb2 : ∀ k2 ∈ liveIds
          ({ acc.2 with track_id_count := acc.2.track_id_count + 1,
                        tracks := acc.2.tracks ++ [(acc.2.track_id_count, tr)] } :
            AdvancedMultiObjectTracker),
          k2 < acc.2.track_id_count + 1 := by
        intro k2 hk2
        have : k2 ∈ liveIds acc.2 ++ [acc.2.track_id_count] := by
          unfold liveIds at hk2 ⊢
          rw [List.map_append] at hk2
          exact hk2
        rcases List.mem_append.mp this with h | h
        · exact lt_trans (hb k2 h) (Nat.lt_succ_self _)
        · rw [List.mem_singleton] at h
          subst h
          exact Nat.lt_succ_self _
      obtain ⟨ihb, ihc, ⟨newIds, ihn1, ihn2, ihn3⟩, ihpres, ihlook, ihfr⟩ :=
        ih (acc.1 ++ [emit_tracked acc.2.track_id_count tr acc.2.frame_id cn],
            { acc.2 with track_id_count := acc.2.track_id_count + 1,
                         tracks := acc.2.tracks ++ [(acc.2.track_id_count, tr)] }) hb2
      dsimp only at ihc ihn3 ihpres ihlook
      refine ⟨ihb, by omega, ⟨acc.2.track_id_count :: newIds, ?_, ?_, ?_⟩,
        ?_, ?_, by rw [ihfr]⟩
      · rw [ihn1]
        dsimp only
        rw [List.map_append]
        simp [emit_tracked]
      · rw [List.pairwise_cons]
        refine ⟨fun i hi => ?_, ihn2⟩
        exact (ihn3 i hi).1
      · intro i hi
        rcases List.mem_cons.mp hi with h | h
        · subst h
          have h4 : acc.2.track_id_count + 1 ≤ _ := ihc
          exact ⟨le_refl _, by omega⟩
        · have h3 := ihn3 i h
          exact ⟨le_of_lt h3.1, h3.2⟩
      · intro i h1 h2
        by_cases hik : i = acc.2.track_id_count
        · rw [hik]
          have hnone : acc.2.tracks.lookup acc.2.track_id_count = none :=
            tl_none_of_bound _ _ _ hb (le_refl _)
          have hsome : (acc.2.tracks ++ [(acc.2.track_id_count, tr)]).lookup
              acc.2.track_id_count = some tr := by
            rw [tl_append, hnone]
            simp [List.lookup_cons]
          exact ⟨tr, ihlook _ tr (Nat.lt_succ_self _) hsome, htsu, hcls⟩
        · have hge : acc.2.track_id_count + 1 ≤ i := by omega
          exact ihpres i hge h2
      · intro tid t hlt hl
        have hsome : (acc.2.tracks ++ [(acc.2.track_id_count, tr)]).lookup tid = some t := by
          rw [tl_append_single_ne _ _ _ _ (by omega : tid ≠ acc.2.track_id_count)]
          exact hl
        exact ihlook tid t (by omega) hsome

lemma create_track_step_shape (cn : String) :
    ∀ (acc : List TrackedObject × AdvancedMultiObjectTracker) (det : Detection),
      create_track_step cn acc det = acc ∨
      ∃ tr : AdvancedTrack, tr.time_since_update = 0 ∧ tr.class_name = cn ∧
        create_track_step cn acc det =
          (acc.1 ++ [emit_tracked acc.2.track_id_count tr acc.2.frame_id cn],
           { acc.2 with track_id_count := acc.2.track_id_count + 1,
                        tracks := acc.2.tracks ++ [(acc.2.track_id_count, tr)] }) := by
  intro acc det
  unfold create_track_step
  split
  · exact Or.inr ⟨AdvancedTrack.init acc.2.track_id_count det.bbox det.score
      acc.2.frame_id cn, rfl, rfl, rfl⟩
  · exact Or.inl rfl

lemma create_unmatched_step_shape (cn : String) (db : List Box) (dsc : List ℚ) :
    ∀ (acc : List TrackedObject × AdvancedMultiObjectTracker) (j : ℕ),
      create_unmatched_step cn db dsc acc j = acc ∨
      ∃ tr : AdvancedTrack, tr.time_since_update = 0 ∧ tr.class_name = cn ∧
        create_unmatched_step cn db dsc acc j =
          (acc.1 ++ [emit_tracked acc.2.track_id_count tr acc.2.frame_id cn],
           { acc.2 with track_id_count := acc.2.track_id_count + 1,
                        tracks := acc.2.tracks ++ [(acc.2.track_id_count, tr)] }) := by
  intro acc j
  unfold create_unmatched_step
  split
  · exact Or.inr ⟨AdvancedTrack.init acc.2.track_id_count (db.getD j (Box.mk 0 0 0 0))
      (dsc.getD j 0) acc.2.frame_id cn, rfl, rfl, rfl⟩
  · exact Or.inl rfl

lemma apply_fold_state (cn : String) (db : List Box) (dsc : List ℚ) :
    ∀ (ml : List (ℕ × ℕ)) (acc : List TrackedObject × AdvancedMultiObjectTracker),
      liveIds (ml.foldl (apply_match_step cn db dsc) acc).2 = liveIds acc.2 ∧
      (ml.foldl (apply_match_step cn db dsc) acc).2.track_id_count =
        acc.2.track_id_count ∧
      (ml.foldl (apply_match_step cn db dsc) acc).2.frame_id = acc.2.frame_id := by
  intro ml
  induction ml with
  | nil => intro acc; exact ⟨rfl, rfl, rfl⟩
  | cons m ml ih =>
    intro acc
    rw [List.foldl_cons]
    cases hl : acc.2.tracks.lookup m.1 with
    | none =>
      have hstep : apply_match_step cn db dsc acc m = acc := by
        unfold apply_match_step
        rw [hl]
      rw [hstep]
      exact ih acc
    | some tr =>
      have hstep : apply_match_step cn db dsc acc m =
          (acc.1 ++ [emit_tracked m.1
              (tr.update (db.getD m.2 (Box.mk 0 0 0 0)) (dsc.getD m.2 0)
                acc.2.frame_id) acc.2.frame_id cn],
           { acc.2 with tracks := acc.2.tracks.map (fun p =>
              if p.1 = m.1 then (p.1,
                tr.update (db.getD m.2 (Box.mk 0 0 0 0)) (dsc.getD m.2 0)
                  acc.2.frame_id) else p) }) := by
        unfold apply_match_step
        rw [hl]
      rw [hstep]
      obtain ⟨ih1, ih2, ih3⟩ := ih _
      refine ⟨?_, ih2, ih3⟩
      rw [ih1]
      exact map_fst_map_ite _ _ _

/-! ## Branch equations for `_update_class_tracks` -/

lemma uct_eq_empty (s : AdvancedMultiObjectTracker) (dets : List Detection)
    (cn : String) (h : dets.isEmpty = true) :
    update_class_tracks s dets cn = ([], s) := by
  unfold update_class_tracks
  rw [if_pos h]

lemma uct_matched_eq_empty (s : AdvancedMultiObjectTracker)
    (dets : List Detection) (cn : String) (h : dets.isEmpty = true) :
    uct_matched_pairs s dets cn = [] := by
  unfold uct_matched_pairs
  rw [if_pos h]

lemma uct_eq_create (s : AdvancedMultiObjectTracker) (dets : List Detection)
    (cn : String) (h1 : dets.isEmpty = false)
    (h2 : (s.tracks.filter (fun p => p.2.class_name = cn)).isEmpty = true) :
    update_class_tracks s dets cn =
      dets.foldl (create_track_step cn) ([], s) := by
  unfold update_class_tracks
  rw [if_neg (by rw [h1]; exact Bool.false_ne_true)]
  dsimp only
  rw [if_pos h2]

lemma uct_matched_eq_create (s : AdvancedMultiObjectTracker)
    (dets : List Detection) (cn : String) (h1 : dets.isEmpty = false)
    (h2 : (s.tracks.filter (fun p => p.2.class_name = cn)).isEmpty = true) :
    uct_matched_pairs s dets cn = [] := by
  unfold uct_matched_pairs
  rw [if_neg (by rw [h1]; exact Bool.false_ne_true)]
  dsimp only
  rw [if_pos h2]

lemma uct_eq_assoc (s : AdvancedMultiObjectTracker) (dets : List Detection)
    (cn : String) (h1 : dets.isEmpty = false)
    (h2 : (s.tracks.filter (fun p => p.2.class_name = cn)).isEmpty = false) :
    update_class_tracks s dets cn =
      ((match_tracks (s.tracks.filter (fun p => p.2.class_name = cn))
          (dets.map (fun d => d.bbox)) (dets.map (fun d => d.score)) cn
          s.match_thresh).2.foldl
        (create_unmatched_step cn (dets.map (fun d => d.bbox))
          (dets.map (fun d => d.score)))
        ((match_tracks (s.tracks.filter (fun p => p.2.class_name = cn))
            (dets.map (fun d => d.bbox)) (dets.map (fun d => d.score)) cn
            s.match_thresh).1.foldl
          (apply_match_step cn (dets.map (fun d => d.bbox))
            (dets.map (fun d => d.score)))
          ([], s))) := by
  unfold update_class_tracks
  rw [if_neg (by rw [h1]; exact Bool.false_ne_true)]
  dsimp only
  rw [if_neg (by rw [h2]; exact Bool.false_ne_true)]

lemma uct_matched_eq_assoc (s : AdvancedMultiObjectTracker)
    (dets : List Detection) (cn : String) (h1 : dets.isEmpty = false)
    (h2 : (s.tracks.filter (fun p => p.2.class_name = cn)).isEmpty = false) :
    uct_matched_pairs s dets cn =
      (match_tracks (s.tracks.filter (fun p => p.2.class_name = cn))
        (dets.map (fun d => d.bbox)) (dets.map (fun d => d.score)) cn
        s.match_thresh).1 := by
  unfold uct_matched_pairs
  rw [if_neg (by rw [h1]; exact Bool.false_ne_true)]
  dsimp only
  rw [if_neg (by rw [h2]; exact Bool.false_ne_true)]

lemma remove_fold_spec : ∀ (R : List ℕ) (st : AdvancedMultiObjectTracker),
    R.Nodup → (∀ i ∈ R, i ∉ st.removed_tracks) →
    (R.foldl remove_track_step st).tracks = st.tracks.filter (fun p => p.1 ∉ R) ∧
    (R.foldl remove_track_step st).removed_tracks = st.removed_tracks ++ R ∧
    (R.foldl remove_track_step st).track_thresh = st.track_thresh ∧
    (R.foldl remove_track_step st).match_thresh = st.match_thresh ∧
    (R.foldl remove_track_step st).max_time_lost = st.max_time_lost ∧
    (R.foldl remove_track_step st).min_track_length = st.min_track_length ∧
    (R.foldl remove_track_step st).frame_id = st.frame_id ∧
    (R.foldl remove_track_step st).track_id_count = st.track_id_count := by
  intro R
  induction R with
  | nil =>
    intro st _ _
    refine ⟨?_, (List.append_nil _).symm, rfl, rfl, rfl, rfl, rfl, rfl⟩
    have : ∀ p ∈ st.tracks, (decide (p.1 ∉ ([] : List ℕ))) = true := by
      intro p _
      simp
    rw [List.filter_eq_self.mpr this]
    rfl
  | cons tid R ih =>
    intro st hnd hdisj
    rw [List.foldl_cons]
    have hstep : remove_track_step st tid =
        { st with removed_tracks := st.removed_tracks ++ [tid],
                  tracks := st.tracks.filter (fun p => p.1 ≠ tid) } := by
      unfold remove_track_step
      rw [if_neg (hdisj tid (List.mem_cons_self _ _))]
    rw [hstep]
    rw [List.nodup_cons] at hnd
    obtain ⟨h1, h2, h3, h4, h5, h6, h7, h8⟩ := ih
      { st with removed_tracks := st.removed_tracks ++ [tid],
                tracks := st.tracks.filter (fun p => p.1 ≠ tid) } hnd.2 (by
      intro i hi
      show i ∉ st.removed_tracks ++ [tid]
      simp only [List.mem_append, List.mem_singleton]
      push_neg
      exact ⟨hdisj i (List.mem_cons_of_mem _ hi),
        fun hh => hnd.1 (hh ▸ hi)⟩)
    refine ⟨?_, ?_, h3, h4, h5, h6, h7, h8⟩
    · rw [h1]
      dsimp only
      rw [List.filter_filter]
      apply List.filter_congr
      intro p _
      by_cases ha : p.1 = tid
      · simp [List.mem_cons, ha]
      · by_cases hb : p.1 ∈ R <;> simp [List.mem_cons, ha, hb]
    · rw [h2]
      dsimp only
      rw [List.append_assoc]
      rfl

lemma handle_lost_spec (s : AdvancedMultiObjectTracker)
    (hnd : (liveIds s).Nodup)
    (hdisj : ∀ i ∈ liveIds s, i ∉ s.removed_tracks) :
    (handle_lost_tracks s).tracks =
      s.tracks.filter (fun p => ¬ p.2.time_since_update > s.max_time_lost) ∧
    (handle_lost_tracks s).removed_tracks =
      s.removed_tracks ++
        ((s.tracks.filter (fun p => p.2.time_since_update > s.max_time_lost)).map
          (fun p => p.1)) ∧
    (handle_lost_tracks s).track_thresh = s.track_thresh ∧
    (handle_lost_tracks s).match_thresh = s.match_thresh ∧
    (handle_lost_tracks s).max_time_lost = s.max_time_lost ∧
    (handle_lost_tracks s).min_track_length = s.min_track_length ∧
    (handle_lost_tracks s).frame_id = s.frame_id ∧
    (handle_lost_tracks s).track_id_count = s.track_id_count := by
  unfold handle_lost_tracks
  dsimp only
  have hsub : ((s.tracks.filter (fun p => p.2.time_since_update > s.max_time_lost)).map
      (fun p => p.1)).Sublist (liveIds s) :=
    (List.filter_sublist _).map _
  have hRnodup := hnd.sublist hsub
  have hRmem : ∀ i ∈ (s.tracks.filter
      (fun p => p.2.time_since_update > s.max_time_lost)).map (fun p => p.1),
      i ∈ liveIds s := fun i hi => hsub.mem hi
  obtain ⟨h1, h2, h3, h4, h5, h6, h7, h8⟩ :=
    remove_fold_spec _ s hRnodup (fun i hi => hdisj i (hRmem i hi))
  refine ⟨?_, h2, h3, h4, h5, h6, h7, h8⟩
  · rw [h1]
    apply List.filter_congr
    intro p hp
    by_cases hc : p.2.time_since_update > s.max_time_lost
    · have : p.1 ∈ (s.tracks.filter
          (fun p => p.2.time_since_update > s.max_time_lost)).map (fun p => p.1) :=
        List.mem_map.mpr ⟨p, List.mem_filter.mpr ⟨hp, by simpa using hc⟩, rfl⟩
      simp [this, hc]
    · have : p.1 ∉ (s.tracks.filter
          (fun p => p.2.time_since_update > s.max_time_lost)).map (fun p => p.1) := by
        intro hmem
        obtain ⟨q, hq, hq1⟩ := List.mem_map.mp hmem
        have hqtr := List.mem_filter.mp hq
        have : q = p := List.inj_on_of_nodup_map hnd hqtr.1 hp hq1
        subst this
        exact hc (by simpa using hqtr.2)
      simp [this, hc]

/-! ## Bumping `time_since_update` -/

lemma bump_tsu_chars (s : AdvancedMultiObjectTracker) :
    liveIds (bump_tsu s) = liveIds s ∧
    (bump_tsu s).track_id_count = s.track_id_count ∧
    (bump_tsu s).removed_tracks = s.removed_tracks ∧
    (bump_tsu s).frame_id = s.frame_id + 1 ∧
    (bump_tsu s).max_time_lost = s.max_time_lost ∧
    (bump_tsu s).match_thresh = s.match_thresh ∧
    (bump_tsu s).track_thresh = s.track_thresh ∧
    ∀ tid, (bump_tsu s).tracks.lookup tid =
      (s.tracks.lookup tid).map
        (fun t => { t with time_since_update := t.time_since_update + 1 }) := by
  refine ⟨?_, rfl, rfl, rfl, rfl, rfl, rfl, fun tid => ?_⟩
  · exact map_fst_map_value s.tracks
      (fun t => { t with time_since_update := t.time_since_update + 1 })
  · exact tl_map_value s.tracks
      (fun t => { t with time_since_update := t.time_since_update + 1 }) tid

/-! ## The tracker invariant is preserved by `update` -/

lemma phase_of_ite (s1 : AdvancedMultiObjectTracker) (dets : List Detection)
    (cn : String) :
    PhaseExtends s1 (if dets.isEmpty then (([] : List TrackedObject), s1)
                     else update_class_tracks s1 dets cn).2 := by
  split
  · exact PhaseExtends.refl s1
  · exact uct_phase s1 dets cn

lemma nodup_of_pairwise_lt {l : List ℕ} (h : List.Pairwise (· < ·) l) :
    l.Nodup :=
  h.imp (fun hab => Nat.ne_of_lt hab)

lemma inv_of_phase (s s3 : AdvancedMultiObjectTracker) (hInv : TrackerInv s)
    (hph : PhaseExtends s s3) : TrackerInv s3 := by
  obtain ⟨hp, hb, hr, hd⟩ := hInv
  obtain ⟨-, -, -, -, he, hf, n, hn, hpn, hbn⟩ := hph
  refine ⟨?_, ?_, ?_, ?_⟩
  · rw [hn, List.pairwise_append]
    exact ⟨hp, hpn, fun a ha b hb2 => lt_of_lt_of_le (hb a ha) (hbn b hb2).1⟩
  · intro i hi
    rw [hn] at hi
    rcases List.mem_append.mp hi with hi | hi
    · exact lt_of_lt_of_le (hb i hi) hf
    · exact (hbn i hi).2
  · intro i hi
    rw [he] at hi
    exact lt_of_lt_of_le (hr i hi) hf
  · intro i hi
    rw [hn] at hi
    rw [he]
    rcases List.mem_append.mp hi with hi | hi
    · exact hd i hi
    · intro hcon
      have := hr i hcon
      have := (hbn i hi).1
      omega

lemma final_inv (s3 : AdvancedMultiObjectTracker) (hInv3 : TrackerInv s3) :
    TrackerInv (handle_lost_tracks s3) ∧
    (handle_lost_tracks s3).track_id_count = s3.track_id_count ∧
    (∀ i ∈ s3.removed_tracks, i ∈ (handle_lost_tracks s3).removed_tracks) ∧
    (∀ i ∈ liveIds (handle_lost_tracks s3), i ∈ liveIds s3) ∧
    (∀ i ∈ liveIds s3, i ∉ liveIds (handle_lost_tracks s3) →
      i ∈ (handle_lost_tracks s3).removed_tracks) ∧
    (handle_lost_tracks s3).max_time_lost = s3.max_time_lost ∧
    (handle_lost_tracks s3).match_thresh = s3.match_thresh ∧
    (handle_lost_tracks s3).track_thresh = s3.track_thresh ∧
    (handle_lost_tracks s3).frame_id = s3.frame_id := by
  obtain ⟨hp, hb, hr, hd⟩ := hInv3
  have hnd : (liveIds s3).Nodup := nodup_of_pairwise_lt hp
  obtain ⟨h1, h2, h3, h4, h5, h6, h7, h8⟩ := handle_lost_spec s3 hnd hd
  have hlive : liveIds (handle_lost_tracks s3) =
      (s3.tracks.filter (fun p => ¬ p.2.time_since_update > s3.max_time_lost)).map
        (fun p => p.1) := by
    unfold liveIds
    rw [h1]
  have hlive_sub : (liveIds (handle_lost_tracks s3)).Sublist (liveIds s3) := by
    rw [hlive]
    exact (List.filter_sublist _).map _
  have hRsub : ((s3.tracks.filter
      (fun p => p.2.time_since_update > s3.max_time_lost)).map (fun p => p.1)).Sublist
      (liveIds s3) := (List.filter_sublist _).map _
  refine ⟨⟨hp.sublist hlive_sub, ?_, ?_, ?_⟩, h8, ?_, ?_, ?_, h5, h4, h3, h7⟩
  · intro i hi
    rw [h8]
    exact hb i (hlive_sub.mem hi)
  · intro i hi
    rw [h2] at hi
    rw [h8]
    rcases List.mem_append.mp hi with hi | hi
    · exact hr i hi
    · exact hb i (hRsub.mem hi)
  · intro i hi
    rw [h2]
    intro hcon
    rcases List.mem_append.mp hcon with hcon | hcon
    · exact hd i (hlive_sub.mem hi) hcon
    · rw [hlive] at hi
      obtain ⟨p, hpmem, hpi⟩ := List.mem_map.mp hi
      obtain ⟨q, hqmem, hqi⟩ := List.mem_map.mp hcon
      have hpf := List.mem_filter.mp hpmem
      have hqf := List.mem_filter.mp hqmem
      have : q = p :=
        List.inj_on_of_nodup_map hnd hqf.1 hpf.1 (hqi.trans hpi.symm)
      subst this
      have hc1 := hpf.2
      have hc2 := hqf.2
      simp only [decide_not] at hc1
      rw [hc2] at hc1
      simp at hc1
  · intro i hi
    rw [h2]
    exact List.mem_append.mpr (Or.inl hi)
  · intro i hi
    exact hlive_sub.mem hi
  · intro i hi hni
    rw [h2]
    have hi2 : i ∈ (s3.tracks.map (fun p => p.1)) := hi
    obtain ⟨p, hpmem, hpi⟩ := List.mem_map.mp hi2
    by_cases hc : p.2.time_since_update > s3.max_time_lost
    · refine List.mem_append.mpr (Or.inr ?_)
      exact List.mem_map.mpr ⟨p, List.mem_filter.mpr ⟨hpmem, by simpa using hc⟩, hpi⟩
    · exfalso
      apply hni
      rw [hlive]
      exact List.mem_map.mpr ⟨p, List.mem_filter.mpr ⟨hpmem, by simpa using hc⟩, hpi⟩

lemma bump_inv (s : AdvancedMultiObjectTracker) (hInv : TrackerInv s) :
    TrackerInv (bump_tsu s) := by
  obtain ⟨hc, -, -, -, -, -, -, -⟩ := bump_tsu_chars s
  obtain ⟨hp, hb, hr, hd⟩ := hInv
  exact ⟨hc ▸ hp, fun i hi => hb i (hc ▸ hi), hr, fun i hi => hd i (hc ▸ hi)⟩

lemma update_inv (s : AdvancedMultiObjectTracker) (ds : List Detection)
    (hInv : TrackerInv s) :
    TrackerInv (s.update ds).2 ∧
    s.track_id_count ≤ (s.update ds).2.track_id_count ∧
    (∀ i ∈ s.removed_tracks, i ∈ (s.update ds).2.removed_tracks) ∧
    (∀ i ∈ liveIds (s.update ds).2,
      i ∈ liveIds s ∨
      (s.track_id_count ≤ i ∧ i ∉ s.removed_tracks ∧ i ∉ liveIds s)) ∧
    (∀ i ∈ liveIds s, i ∉ liveIds (s.update ds).2 →
      i ∈ (s.update ds).2.removed_tracks) ∧
    (s.update ds).2.max_time_lost = s.max_time_lost ∧
    (s.update ds).2.match_thresh = s.match_thresh ∧
    (s.update ds).2.track_thresh = s.track_thresh := by
  obtain ⟨hlb, hcb, hrb, hfb, hmb, hmtb, htb, -⟩ := bump_tsu_chars s
  have hInv1 : TrackerInv (bump_tsu s) := bump_inv s hInv
  unfold AdvancedMultiObjectTracker.update
  dsimp only
  split
  · -- no detections: the bumped state is returned as is
    dsimp only
    obtain ⟨hp, hb, hr, hd⟩ := hInv1
    refine ⟨⟨hp, hb, hr, hd⟩, le_of_eq hcb.symm, ?_, ?_, ?_, hmb, hmtb, htb⟩
    · intro i hi
      rw [hrb]
      exact hi
    · intro i hi
      rw [hlb] at hi
      exact Or.inl hi
    · intro i hi hcon
      exact absurd (hlb ▸ hi) hcon
  · -- detections present: two phases then the sweep
    have hph : PhaseExtends (bump_tsu s)
        (if (ds.filter (fun d => d.class_name = "ball")).isEmpty then
          (([] : List TrackedObject),
            (if (ds.filter (fun d => d.class_name = "person")).isEmpty then
              (([] : List TrackedObject), bump_tsu s)
            else update_class_tracks (bump_tsu s)
              (ds.filter (fun d => d.class_name = "person")) "person").2)
         else update_class_tracks
            (if (ds.filter (fun d => d.class_name = "person")).isEmpty then
              (([] : List TrackedObject), bump_tsu s)
            else update_class_tracks (bump_tsu s)
              (ds.filter (fun d => d.class_name = "person")) "person").2
            (ds.filter (fun d => d.class_name = "ball")) "ball").2 := by
      refine PhaseExtends.trans (phase_of_ite (bump_tsu s)
        (ds.filter (fun d => d.class_name = "person")) "person") ?_
      exact phase_of_ite _ (ds.filter (fun d => d.class_name = "ball")) "ball"
    set s3 := (if (ds.filter (fun d => d.class_name = "ball")).isEmpty then
          (([] : List TrackedObject),
            (if (ds.filter (fun d => d.class_name = "person")).isEmpty then
              (([] : List TrackedObject), bump_tsu s)
            else update_class_tracks (bump_tsu s)
              (ds.filter (fun d => d.class_name = "person")) "person").2)
         else update_class_tracks
            (if (ds.filter (fun d => d.class_name = "person")).isEmpty then
              (([] : List TrackedObject), bump_tsu s)
            else update_class_tracks (bump_tsu s)
              (ds.filter (fun d => d.class_name = "person")) "person").2
            (ds.filter (fun d => d.class_name = "ball")) "ball").2 with hs3
    have hInv3 : TrackerInv s3 := inv_of_phase _ _ hInv1 hph
    obtain ⟨hph1, hph2, hph3, hph4, hph5, hph6, n, hn, hpn, hbn⟩ := hph
    obtain ⟨hf1, hf2, hf3, hf4, hf5, hf6, hf7, hf8, -⟩ := final_inv s3 hInv3
    refine ⟨hf1, ?_, ?_, ?_, ?_, ?_, ?_, ?_⟩
    · rw [hf2, ← hcb]
      exact hph6
    · intro i hi
      apply hf3
      rw [hph5, hrb]
      exact hi
    · intro i hi
      have hi3 := hf4 i hi
      rw [hn, hlb] at hi3
      rcases List.mem_append.mp hi3 with hi3 | hi3
      · exact Or.inl hi3
      · right
        obtain ⟨hge, -⟩ := hbn i hi3
        rw [hcb] at hge
        refine ⟨hge, ?_, ?_⟩
        · intro hcon
          obtain ⟨-, -, hr, -⟩ := hInv
          have := hr i hcon
          omega
        · intro hcon
          obtain ⟨-, hb, -, -⟩ := hInv
          have := hb i hcon
          omega
    · intro i hi hcon
      apply hf5 i _ hcon
      rw [hn, hlb]
      exact List.mem_append.mpr (Or.inl hi)
    · rw [hf6, hph3, hmb]
    · rw [hf7, hph2, hmtb]
    · rw [hf8, hph1, htb]

lemma runP_inv (track_thresh match_thresh : ℚ)
    (max_time_lost min_track_length : ℕ) (dss : List (List Detection)) :
    TrackerInv (runTrackerP track_thresh match_thresh max_time_lost min_track_length dss) := by
  unfold runTrackerP
  apply foldl_inv _ TrackerInv
  · intro s ds hs
    exact (update_inv s ds hs).1
  · exact ⟨List.Pairwise.nil, fun i hi => absurd hi (List.not_mem_nil i),
      fun i hi => absurd hi (List.not_mem_nil i),
      fun i hi => absurd hi (List.not_mem_nil i)⟩

/-! ## Track confirmation (C9) -/

lemma updateKalman_acc (t : AdvancedTrack) (b : Box) :
    (t.updateKalman b).is_confirmed = t.is_confirmed ∧
    (t.updateKalman b).age = t.age ∧
    (t.updateKalman b).confidence_history = t.confidence_history ∧
    (t.updateKalman b).time_since_update = t.time_since_update ∧
    (t.updateKalman b).last_update = t.last_update ∧
    (t.updateKalman b).class_name = t.class_name := by
  unfold AdvancedTrack.updateKalman
  dsimp only
  cases hp : penult t.history with
  | none => exact ⟨rfl, rfl, rfl, rfl, rfl, rfl⟩
  | some v =>
    obtain ⟨pbox, ps, pf⟩ := v
    dsimp only
    split
    · exact ⟨rfl, rfl, rfl, rfl, rfl, rfl⟩
    · exact ⟨rfl, rfl, rfl, rfl, rfl, rfl⟩

lemma updateCore_chars (t : AdvancedTrack) (b : Box) (sc : ℚ) (f : ℕ) :
    (t.updateCore b sc f).age = t.age + 1 ∧
    (t.updateCore b sc f).time_since_update = 0 ∧
    (t.updateCore b sc f).last_update = f ∧
    (t.updateCore b sc f).class_name = t.class_name ∧
    (t.updateCore b sc f).confidence_history =
      (if (t.confidence_history ++ [sc]).length > 10
       then (t.confidence_history ++ [sc]).drop 1
       else t.confidence_history ++ [sc]) ∧
    (t.updateCore b sc f).is_confirmed = t.is_confirmed := by
  unfold AdvancedTrack.updateCore
  dsimp only
  cases hp : penult (t.history ++ [(b, sc, f)]) with
  | none => exact ⟨rfl, rfl, rfl, rfl, rfl, rfl⟩
  | some v =>
    obtain ⟨pbox, ps, pf⟩ := v
    dsimp only
    split
    · have hk := updateKalman_acc
        ({ t with bbox := b, score := sc, frame_id := f, last_update := f,
                  history := t.history ++ [(b, sc, f)], age := t.age + 1,
                  time_since_update := 0,
                  confidence_history :=
                    (if (t.confidence_history ++ [sc]).length > 10
                     then (t.confidence_history ++ [sc]).drop 1
                     else t.confidence_history ++ [sc]),
                  velocity := ((b.x - pbox.x) / (((f : ℤ) - (pf : ℤ) : ℤ) : ℚ),
                               (b.y - pbox.y) / (((f : ℤ) - (pf : ℤ) : ℤ) : ℚ)) }) b
      exact ⟨hk.2.1, hk.2.2.2.1, hk.2.2.2.2.1, hk.2.2.2.2.2, hk.2.2.1, hk.1⟩
    · exact ⟨rfl, rfl, rfl, rfl, rfl, rfl⟩

lemma confirm_if_proj (c : Prop) [Decidable c] (t3 : AdvancedTrack) :
    (if c then { t3 with is_confirmed := true } else t3).age = t3.age ∧
    (if c then { t3 with is_confirmed := true } else t3).time_since_update
      = t3.time_since_update ∧
    (if c then { t3 with is_confirmed := true } else t3).last_update
      = t3.last_update ∧
    (if c then { t3 with is_confirmed := true } else t3).class_name
      = t3.class_name ∧
    (if c then { t3 with is_confirmed := true } else t3).confidence_history
      = t3.confidence_history ∧
    (if c then { t3 with is_confirmed := true } else t3).is_confirmed
      = (t3.is_confirmed || decide c) := by
  split
  · rename_i h
    refine ⟨rfl, rfl, rfl, rfl, rfl, ?_⟩
    simp [decide_eq_true h]
  · rename_i h
    refine ⟨rfl, rfl, rfl, rfl, rfl, ?_⟩
    simp [decide_eq_false h]

lemma update_chars (t : AdvancedTrack) (b : Box) (sc : ℚ) (f : ℕ) :
    (t.update b sc f).age = t.age + 1 ∧
    (t.update b sc f).time_since_update = 0 ∧
    (t.update b sc f).last_update = f ∧
    (t.update b sc f).class_name = t.class_name ∧
    (t.update b sc f).confidence_history =
      (if (t.confidence_history ++ [sc]).length > 10
       then (t.confidence_history ++ [sc]).drop 1
       else t.confidence_history ++ [sc]) ∧
    (t.update b sc f).is_confirmed =
      (t.is_confirmed ||
        decide (3 ≤ (t.updateCore b sc f).age ∧
          1/2 < listMean (t.updateCore b sc f).confidence_history)) := by
  have hcore := updateCore_chars t b sc f
  have hif := confirm_if_proj
    (3 ≤ (t.updateCore b sc f).age ∧
      1/2 < listMean (t.updateCore b sc f).confidence_history)
    (t.updateCore b sc f)
  unfold AdvancedTrack.update
  dsimp only
  refine ⟨?_, ?_, ?_, ?_, ?_, ?_⟩
  · rw [hif.1, hcore.1]
  · rw [hif.2.1, hcore.2.1]
  · rw [hif.2.2.1, hcore.2.2.1]
  · rw [hif.2.2.2.1, hcore.2.2.2.1]
  · rw [hif.2.2.2.2.1, hcore.2.2.2.2.1]
  · rw [hif.2.2.2.2.2, hcore.2.2.2.2.2]

/-- **C9.** `is_confirmed` starts `false`, is set by an update exactly when
the post-update `age` is at least 3 and the mean of the (at most 10)
retained confidence samples exceeds `1/2`, never reverts once `true`, and
the confidence window stays bounded by 10 samples. -/
theorem is_confirmed_monotone :
    (∀ (track_id : ℕ) (bbox : Box) (score : ℚ) (frame_id : ℕ) (class_name : String),
      (AdvancedTrack.init track_id bbox score frame_id class_name).is_confirmed = false) ∧
    (∀ (t : AdvancedTrack) (bbox : Box) (score : ℚ) (frame_id : ℕ),
      (t.update bbox score frame_id).is_confirmed =
        (t.is_confirmed ||
          decide (3 ≤ (t.update bbox score frame_id).age ∧
            1/2 < listMean (t.update bbox score frame_id).confidence_history))) ∧
    (∀ (t : AdvancedTrack) (bbox : Box) (score : ℚ) (frame_id : ℕ),
      t.is_confirmed = true → (t.update bbox score frame_id).is_confirmed = true) ∧
    (∀ (t : AdvancedTrack) (bbox : Box) (score : ℚ) (frame_id : ℕ),
      t.confidence_history.length ≤ 10 →
      (t.update bbox score frame_id).confidence_history.length ≤ 10) := by
  refine ⟨fun _ _ _ _ _ => rfl, ?_, ?_, ?_⟩
  · intro t b sc f
    have hcore := updateCore_chars t b sc f
    obtain ⟨ha, -, -, -, hch, hic⟩ := update_chars t b sc f
    rw [hic, ha, hch, hcore.1, hcore.2.2.2.2.1]
  · intro t b sc f h
    obtain ⟨-, -, -, -, -, hic⟩ := update_chars t b sc f
    rw [hic, h, Bool.true_or]
  · intro t b sc f h
    obtain ⟨-, -, -, -, hch, -⟩ := update_chars t b sc f
    rw [hch]
    split
    · rename_i hlen
      simp only [List.length_drop, List.length_append, List.length_singleton]
      omega
    · rename_i hlen
      simp only [List.length_append, List.length_singleton] at hlen ⊢
      omega

/-- Witness for C9: a confirmed track stays confirmed through an update,
and a full 10-sample window stays at 10 samples. -/
theorem is_confirmed_monotone_witness :
    (({ AdvancedTrack.init 0 (boxAt 0 0 1) 1 1 "person" with
        is_confirmed := true }).update (boxAt 0 0 1) 1 2).is_confirmed = true ∧
    ((AdvancedTrack.init 0 (boxAt 0 0 1) 1 1 "person").update
      (boxAt 0 0 1) 1 2).confidence_history.length ≤ 10 :=
  ⟨is_confirmed_monotone.2.2.1 _ _ _ _ rfl,
   is_confirmed_monotone.2.2.2 _ _ _ _ (by decide!)⟩

/-! ## Id assignment (C8) -/

/-- **C8.** Along any run of `update` calls: live ids stay strictly
increasing in table order and below the id counter, the counter never
decreases, the removed set only grows, no live id is recorded as removed,
every id that is live after a call is either an old live id or a fresh id
at or above the old counter that was never assigned before (neither live
nor removed), and every id dropped from the live table during the call is
recorded in the removed set. -/
theorem track_ids_fresh_and_monotone (track_thresh match_thresh : ℚ)
    (max_time_lost min_track_length : ℕ) (dss : List (List Detection))
    (ds : List Detection) :
    let s := runTrackerP track_thresh match_thresh max_time_lost min_track_length dss
    let s2 := (s.update ds).2
    List.Pairwise (· < ·) (liveIds s2) ∧
    (∀ i ∈ liveIds s2, i < s2.track_id_count) ∧
    s.track_id_count ≤ s2.track_id_count ∧
    (∀ i ∈ s.removed_tracks, i ∈ s2.removed_tracks) ∧
    (∀ i ∈ liveIds s2, i ∉ s2.removed_tracks) ∧
    (∀ i ∈ liveIds s2,
      i ∈ liveIds s ∨
      (s.track_id_count ≤ i ∧ i ∉ s.removed_tracks ∧ i ∉ liveIds s)) ∧
    (∀ i ∈ liveIds s, i ∉ liveIds s2 → i ∈ s2.removed_tracks) := by
  intro s s2
  have hInv := runP_inv track_thresh match_thresh max_time_lost min_track_length dss
  obtain ⟨⟨hp, hb, -, hd⟩, hcount, hrem, hnew, hdrop, -, -, -⟩ :=
    update_inv s ds hInv
  exact ⟨hp, hb, hcount, hrem, hd, hnew, hdrop⟩

/-- Witness for C8 on a one-call run: the created track's id is below the
counter. -/
theorem track_ids_fresh_and_monotone_witness :
    0 < ((runTrackerP (3/10) (7/10) 15 3 [[personDet]]).update [ballDet]).2.track_id_count :=
  (track_ids_fresh_and_monotone (3/10) (7/10) 15 3 [[personDet]] [ballDet]).2.1
    0 (by decide!)

/-! ## The association round (C3) -/

/-- **C3.** The per-class association round of the source coincides with
the claimed rule: cost `1 − IoU` on the smoothed box, tracks visited in
table order each greedily taking the still-unmatched detection of highest
IoU, a match accepted exactly when that IoU strictly exceeds the class
threshold (`3/5` for person, `4/5` for ball, else the default, `7/10` for
the default construction), and accepted detections leaving the pool.  In
every reachable tracker state the per-class table handed to the round is
in strictly ascending id order, so the procedure is deterministic. -/
theorem match_tracks_greedy_refinement :
    (∀ (tracks : List (ℕ × AdvancedTrack)) (det_bboxes : List Box)
       (det_scores : List ℚ) (class_name : String) (match_thresh_dflt : ℚ),
      0 ≤ class_params_match_thresh class_name match_thresh_dflt →
      match_tracks tracks det_bboxes det_scores class_name match_thresh_dflt =
        spec_match_tracks tracks det_bboxes
          (class_params_match_thresh class_name match_thresh_dflt)) ∧
    (∀ dflt : ℚ, class_params_match_thresh "person" dflt = 3/5 ∧
      class_params_match_thresh "ball" dflt = 4/5 ∧
      ∀ cn, cn ≠ "person" → cn ≠ "ball" →
        class_params_match_thresh cn dflt = dflt) ∧
    defaultTracker.match_thresh = 7/10 ∧
    (∀ (track_thresh match_thresh : ℚ) (max_time_lost min_track_length : ℕ)
       (dss : List (List Detection)) (class_name : String),
      List.Pairwise (· < ·)
        (((runTrackerP track_thresh match_thresh max_time_lost min_track_length
            dss).tracks.filter (fun p => p.2.class_name = class_name)).map
          (fun p => p.1))) := by
  refine ⟨match_tracks_eq_spec, ?_, rfl, ?_⟩
  · intro dflt
    refine ⟨rfl, rfl, ?_⟩
    intro cn h1 h2
    unfold class_params_match_thresh
    rw [if_neg h1, if_neg h2]
  · intro tt mt mtl mintl dss cn
    have hInv := runP_inv tt mt mtl mintl dss
    exact hInv.1.sublist ((List.filter_sublist _).map _)

/-- Witness for C3 on a one-track, one-detection person round. -/
theorem match_tracks_greedy_refinement_witness :
    match_tracks [(0, AdvancedTrack.init 0 (boxAt 0 0 5) (9/10) 1 "person")]
        [boxAt 0 0 5] [9/10] "person" (7/10) =
      spec_match_tracks [(0, AdvancedTrack.init 0 (boxAt 0 0 5) (9/10) 1 "person")]
        [boxAt 0 0 5] (class_params_match_thresh "person" (7/10)) :=
  match_tracks_greedy_refinement.1 _ _ _ _ _ (by decide!)

/-! ## The lost-track sweep uses the global threshold (C1) -/

lemma handle_lost_fields (s : AdvancedMultiObjectTracker) :
    (handle_lost_tracks s).max_time_lost = s.max_time_lost ∧
    (handle_lost_tracks s).match_thresh = s.match_thresh ∧
    (handle_lost_tracks s).track_thresh = s.track_thresh := by
  unfold handle_lost_tracks
  dsimp only
  apply foldl_inv _ (fun st : AdvancedMultiObjectTracker =>
    st.max_time_lost = s.max_time_lost ∧ st.match_thresh = s.match_thresh ∧
    st.track_thresh = s.track_thresh)
  · intro st tid hst
    unfold remove_track_step
    split
    · exact hst
    · exact hst
  · exact ⟨rfl, rfl, rfl⟩

lemma runP_fields (track_thresh match_thresh : ℚ)
    (max_time_lost min_track_length : ℕ) (dss : List (List Detection)) :
    (runTrackerP track_thresh match_thresh max_time_lost min_track_length
      dss).max_time_lost = max_time_lost ∧
    (runTrackerP track_thresh match_thresh max_time_lost min_track_length
      dss).match_thresh = match_thresh ∧
    (runTrackerP track_thresh match_thresh max_time_lost min_track_length
      dss).track_thresh = track_thresh := by
  unfold runTrackerP
  apply foldl_inv _ (fun s : AdvancedMultiObjectTracker =>
    s.max_time_lost = max_time_lost ∧ s.match_thresh = match_thresh ∧
    s.track_thresh = track_thresh)
  · intro s ds hs
    -- field preservation does not need the tracker invariant, but the
    -- sweep characterisation is stated through `PhaseExtends`; redo it
    -- directly from the `update` shape
    unfold AdvancedMultiObjectTracker.update
    dsimp only
    split
    · exact hs
    · have hph : PhaseExtends (bump_tsu s)
          (if (ds.filter (fun d => d.class_name = "ball")).isEmpty then
            (([] : List TrackedObject),
              (if (ds.filter (fun d => d.class_name = "person")).isEmpty then
                (([] : List TrackedObject), bump_tsu s)
              else update_class_tracks (bump_tsu s)
                (ds.filter (fun d => d.class_name = "person")) "person").2)
           else update_class_tracks
              (if (ds.filter (fun d => d.class_name = "person")).isEmpty then
                (([] : List TrackedObject), bump_tsu s)
              else update_class_tracks (bump_tsu s)
                (ds.filter (fun d => d.class_name = "person")) "person").2
              (ds.filter (fun d => d.class_name = "ball")) "ball").2 :=
        PhaseExtends.trans (phase_of_ite (bump_tsu s)
          (ds.filter (fun d => d.class_name = "person")) "person")
          (phase_of_ite _ (ds.filter (fun d => d.class_name = "ball")) "ball")
      obtain ⟨hph1, hph2, hph3, -, -, -, -, -, -, -⟩ := hph
      obtain ⟨hh1, hh2, hh3⟩ := handle_lost_fields _
      exact ⟨by rw [hh1, hph3]; exact hs.1, by rw [hh2, hph2]; exact hs.2.1,
        by rw [hh3, hph1]; exact hs.2.2⟩
  · exact ⟨rfl, rfl, rfl⟩

lemma update_nonempty_all_le (s : AdvancedMultiObjectTracker)
    (ds : List Detection) (hInv : TrackerInv s) (hne : ds.isEmpty = false) :
    ∀ p ∈ (s.update ds).2.tracks, p.2.time_since_update ≤ s.max_time_lost := by
  unfold AdvancedMultiObjectTracker.update
  dsimp only
  split
  · rename_i h
    simp [h] at hne
  · have hInv1 : TrackerInv (bump_tsu s) := bump_inv s hInv
    have hph : PhaseExtends (bump_tsu s)
        (if (ds.filter (fun d => d.class_name = "ball")).isEmpty then
          (([] : List TrackedObject),
            (if (ds.filter (fun d => d.class_name = "person")).isEmpty then
              (([] : List TrackedObject), bump_tsu s)
            else update_class_tracks (bump_tsu s)
              (ds.filter (fun d => d.class_name = "person")) "person").2)
         else update_class_tracks
            (if (ds.filter (fun d => d.class_name = "person")).isEmpty then
              (([] : List TrackedObject), bump_tsu s)
            else update_class_tracks (bump_tsu s)
              (ds.filter (fun d => d.class_name = "person")) "person").2
            (ds.filter (fun d => d.class_name = "ball")) "ball").2 :=
      PhaseExtends.trans (phase_of_ite (bump_tsu s)
        (ds.filter (fun d => d.class_name = "person")) "person")
        (phase_of_ite _ (ds.filter (fun d => d.class_name = "ball")) "ball")
    set s3 := (if (ds.filter (fun d => d.class_name = "ball")).isEmpty then
          (([] : List TrackedObject),
            (if (ds.filter (fun d => d.class_name = "person")).isEmpty then
              (([] : List TrackedObject), bump_tsu s)
            else update_class_tracks (bump_tsu s)
              (ds.filter (fun d => d.class_name = "person")) "person").2)
         else update_class_tracks
            (if (ds.filter (fun d => d.class_name = "person")).isEmpty then
              (([] : List TrackedObject), bump_tsu s)
            else update_class_tracks (bump_tsu s)
              (ds.filter (fun d => d.class_name = "person")) "person").2
            (ds.filter (fun d => d.class_name = "ball")) "ball").2 with hs3
    have hInv3 : TrackerInv s3 := inv_of_phase _ _ hInv1 hph
    obtain ⟨hp3, -, -, hd3⟩ := hInv3
    obtain ⟨h1, -, -, -, -, -, -, -⟩ :=
      handle_lost_spec s3 (nodup_of_pairwise_lt hp3) hd3
    obtain ⟨-, -, hml, -, -, -, n, -, -, -⟩ := hph
    intro p hp
    rw [h1] at hp
    have hc := (List.mem_filter.mp hp).2
    simp only [decide_not, Bool.not_eq_eq_eq_not, Bool.not_true,
      decide_eq_false_iff_not, not_lt] at hc
    obtain ⟨-, -, -, -, hmb, -, -, -⟩ := bump_tsu_chars s
    rw [hml, hmb] at hc
    exact of_decide_eq_true hc

/-- **C1 (amended).** The lost-track sweep deletes exactly the live tracks
whose `time_since_update` exceeds the tracker-wide `max_time_lost`
(default 15), for every class alike — the per-class `max_time_lost`
values in `class_params` are never consulted — records each deleted id in
the removed set, and touches nothing else; after any `update` call on a
non-empty detection list, every surviving track satisfies
`time_since_update ≤ max_time_lost`. -/
theorem lost_track_sweep_global_threshold :
    (∀ s : AdvancedMultiObjectTracker,
      (liveIds s).Nodup → (∀ i ∈ liveIds s, i ∉ s.removed_tracks) →
      (handle_lost_tracks s).tracks =
        s.tracks.filter (fun p => ¬ p.2.time_since_update > s.max_time_lost) ∧
      (handle_lost_tracks s).removed_tracks =
        s.removed_tracks ++
          ((s.tracks.filter (fun p => p.2.time_since_update > s.max_time_lost)).map
            (fun p => p.1))) ∧
    (∀ (track_thresh match_thresh : ℚ) (max_time_lost min_track_length : ℕ)
       (dss : List (List Detection)) (ds : List Detection),
      ds.isEmpty = false →
      (((runTrackerP track_thresh match_thresh max_time_lost min_track_length
          dss).update ds).2.tracks.all
        (fun p => p.2.time_since_update ≤ max_time_lost)) = true) := by
  constructor
  · intro s hnd hdisj
    obtain ⟨h1, h2, -, -, -, -, -, -⟩ := handle_lost_spec s hnd hdisj
    exact ⟨h1, h2⟩
  · intro track_thresh match_thresh max_time_lost min_track_length dss ds hne
    have hInv := runP_inv track_thresh match_thresh max_time_lost min_track_length dss
    have hall := update_nonempty_all_le _ ds hInv hne
    rw [List.all_eq_true]
    intro p hp
    have hle := hall p hp
    rw [(runP_fields track_thresh match_thresh max_time_lost min_track_length dss).1] at hle
    exact decide_eq_true hle

/-- Witness for the amended C1 on a state holding a 16-frames-stale person
track, and on a concrete one-call run. -/
theorem lost_track_sweep_global_threshold_witness :
    ((handle_lost_tracks sweepWitnessState).tracks =
      sweepWitnessState.tracks.filter
        (fun p => ¬ p.2.time_since_update > sweepWitnessState.max_time_lost)) ∧
    ((((runTrackerP (3/10) (7/10) 15 3 []).update [personDet]).2.tracks.all
      (fun p => p.2.time_since_update ≤ 15)) = true) :=
  ⟨(lost_track_sweep_global_threshold.1 sweepWitnessState (by decide!) (by decide!)).1,
   lost_track_sweep_global_threshold.2 (3/10) (7/10) 15 3 [] [personDet] (by decide!)⟩

/-- **C1 (counterexample).** With the default tracker, a `person` track
that has gone 16 frames without a match — within the claimed class-specific
allowance of 20 — is nevertheless deleted and recorded as removed, because
the sweep compares against the global default of 15. -/
theorem person_track_removed_before_class_threshold :
    ((runTracker (lostPersonCalls 15)).tracks.lookup 0).map
      (fun t => (t.class_name, t.time_since_update)) = some ("person", 15) ∧
    (runTracker (lostPersonCalls 16)).tracks.lookup 0 = none ∧
    (runTracker (lostPersonCalls 16)).removed_tracks = [0] ∧
    16 ≤ class_params_max_time_lost "person" defaultTracker.max_time_lost := by
  decide!

/-! ## Per-id effect of one `_update_class_tracks` call (C5, C10) -/

lemma uct_lookup_cases (s : AdvancedMultiObjectTracker) (dets : List Detection)
    (cn : String)
    (hb : ∀ i ∈ liveIds s, i < s.track_id_count)
    (hnd : (liveIds s).Nodup)
    (tid : ℕ) (t : AdvancedTrack)
    (hl : s.tracks.lookup tid = some t) :
    (tid ∉ (uct_matched_pairs s dets cn).map (fun m => m.1) →
      (update_class_tracks s dets cn).2.tracks.lookup tid = some t) ∧
    (tid ∈ (uct_matched_pairs s dets cn).map (fun m => m.1) →
      ∃ t2, (update_class_tracks s dets cn).2.tracks.lookup tid = some t2 ∧
        t2.time_since_update = 0 ∧ t2.class_name = t.class_name ∧
        t2.last_update = s.frame_id) := by
  have htid_lt : tid < s.track_id_count :=
    hb tid ((tl_isSome_iff s.tracks tid).mp (by rw [hl]; rfl))
  by_cases hde : dets.isEmpty = true
  · rw [uct_eq_empty s dets cn hde, uct_matched_eq_empty s dets cn hde]
    exact ⟨fun _ => hl, fun hmem => absurd hmem (List.not_mem_nil tid)⟩
  · have hde' : dets.isEmpty = false := by
      revert hde
      cases dets.isEmpty <;> simp
    by_cases hcl : (s.tracks.filter (fun p => p.2.class_name = cn)).isEmpty = true
    · rw [uct_eq_create s dets cn hde' hcl, uct_matched_eq_create s dets cn hde' hcl]
      refine ⟨fun _ => ?_, fun hmem => absurd hmem (List.not_mem_nil tid)⟩
      obtain ⟨-, -, -, -, hlook, -⟩ := create_like_fold cn
        (create_track_step cn) (create_track_step_shape cn) dets ([], s) hb
      exact hlook tid t htid_lt hl
    · have hcl' : (s.tracks.filter (fun p => p.2.class_name = cn)).isEmpty = false := by
        revert hcl
        cases (s.tracks.filter (fun p => p.2.class_name = cn)).isEmpty <;> simp
      rw [uct_eq_assoc s dets cn hde' hcl', uct_matched_eq_assoc s dets cn hde' hcl']
      set db := dets.map (fun d => d.bbox) with hdb
      set dsc := dets.map (fun d => d.score) with hdsc
      set ct := s.tracks.filter (fun p => p.2.class_name = cn) with hct
      set md := match_tracks ct db dsc cn s.match_thresh with hmd
      have hsh := match_tracks_shape ct db dsc cn s.match_thresh
      rw [← hmd] at hsh
      have hclsub : (ct.map (fun p => p.1)).Sublist (liveIds s) := by
        rw [hct]
        exact (List.filter_sublist _).map _
      have hmsub := hsh.1.trans hclsub
      have hmnd : (md.1.map (fun m => m.1)).Nodup := hnd.sublist hmsub
      obtain ⟨hs1, hs2, -⟩ := apply_fold_state cn db dsc md.1 ([], s)
      have hb2 : ∀ k ∈ liveIds (md.1.foldl (apply_match_step cn db dsc) ([], s)).2,
          k < (md.1.foldl (apply_match_step cn db dsc) ([], s)).2.track_id_count := by
        rw [hs1, hs2]
        exact hb
      obtain ⟨-, -, -, -, hlook, -⟩ := create_like_fold cn
        (create_unmatched_step cn db dsc) (create_unmatched_step_shape cn db dsc)
        md.2 _ hb2
      constructor
      · intro hnot
        obtain ⟨ha1, -, -⟩ := apply_fold_lookup_notmem cn db dsc md.1 ([], s) tid hnot
        exact hlook tid t (by rw [hs2]; exact htid_lt) (ha1.trans hl)
      · intro hmem
        obtain ⟨m, hm, hfst⟩ := List.mem_map.mp hmem
        have hpair : (tid, m.2) ∈ md.1 := by
          rw [← hfst]
          exact hm
        have hAM := apply_fold_lookup_mem cn db dsc md.1 ([], s) tid m.2 t hmnd hpair hl
        have hchars := update_chars t (db.getD m.2 (Box.mk 0 0 0 0)) (dsc.getD m.2 0)
          s.frame_id
        exact ⟨t.update (db.getD m.2 (Box.mk 0 0 0 0)) (dsc.getD m.2 0) s.frame_id,
          hlook tid _ (by rw [hs2]; exact htid_lt) hAM,
          hchars.2.1, hchars.2.2.2.1, hchars.2.2.1⟩

lemma uct_out (s : AdvancedMultiObjectTracker) (dets : List Detection) (cn : String)
    (hb : ∀ i ∈ liveIds s, i < s.track_id_count)
    (hnd : (liveIds s).Nodup) :
    (((update_class_tracks s dets cn).1.map (fun o => o.track_id)).Nodup) ∧
    (∀ o ∈ (update_class_tracks s dets cn).1,
      ∃ t2, (update_class_tracks s dets cn).2.tracks.lookup o.track_id = some t2 ∧
        t2.time_since_update = 0 ∧ t2.class_name = cn) := by
  by_cases hde : dets.isEmpty = true
  · rw [uct_eq_empty s dets cn hde]
    exact ⟨List.nodup_nil, fun o ho => absurd ho (List.not_mem_nil o)⟩
  · have hde' : dets.isEmpty = false := by
      revert hde
      cases dets.isEmpty <;> simp
    by_cases hcl : (s.tracks.filter (fun p => p.2.class_name = cn)).isEmpty = true
    · rw [uct_eq_create s dets cn hde' hcl]
      obtain ⟨-, -, ⟨newIds, hn1, hn2, hn3⟩, hpres, -, -⟩ := create_like_fold cn
        (create_track_step cn) (create_track_step_shape cn) dets ([], s) hb
      constructor
      · rw [hn1]
        exact nodup_of_pairwise_lt hn2
      · intro o ho
        have h0 : o.track_id ∈ (dets.foldl (create_track_step cn) ([], s)).1.map
            (fun o => o.track_id) := List.mem_map.mpr ⟨o, ho, rfl⟩
        rw [hn1] at h0
        have h0' : o.track_id ∈ newIds := by
          rcases List.mem_append.mp h0 with h | h
          · exact absurd h (List.not_mem_nil _)
          · exact h
        obtain ⟨hge, hlt2⟩ := hn3 _ h0'
        exact hpres _ hge hlt2
    · have hcl' : (s.tracks.filter (fun p => p.2.class_name = cn)).isEmpty = false := by
        revert hcl
        cases (s.tracks.filter (fun p => p.2.class_name = cn)).isEmpty <;> simp
      rw [uct_eq_assoc s dets cn hde' hcl']
      set db := dets.map (fun d => d.bbox) with hdb
      set dsc := dets.map (fun d => d.score) with hdsc
      set ct := s.tracks.filter (fun p => p.2.class_name = cn) with hct
      set md := match_tracks ct db dsc cn s.match_thresh with hmd
      have hsh := match_tracks_shape ct db dsc cn s.match_thresh
      rw [← hmd] at hsh
      have hclsub : (ct.map (fun p => p.1)).Sublist (liveIds s) := by
        rw [hct]
        exact (List.filter_sublist _).map _
      have hmsub := hsh.1.trans hclsub
      have hmnd : (md.1.map (fun m => m.1)).Nodup := hnd.sublist hmsub
      have hsome : ∀ m ∈ md.1,
          (((([] : List TrackedObject), s).2.tracks.lookup m.1).isSome = true) := by
        intro m hm
        exact (tl_isSome_iff s.tracks m.1).mpr
          (hmsub.subset (List.mem_map.mpr ⟨m, hm, rfl⟩))
      have hout1 := apply_fold_out cn db dsc md.1 ([], s) hsome
      obtain ⟨hs1, hs2, -⟩ := apply_fold_state cn db dsc md.1 ([], s)
      have hb2 : ∀ k ∈ liveIds (md.1.foldl (apply_match_step cn db dsc) ([], s)).2,
          k < (md.1.foldl (apply_match_step cn db dsc) ([], s)).2.track_id_count := by
        rw [hs1, hs2]
        exact hb
      obtain ⟨-, -, ⟨newIds, hn1, hn2, hn3⟩, hpres, hlook, -⟩ := create_like_fold cn
        (create_unmatched_step cn db dsc) (create_unmatched_step_shape cn db dsc)
        md.2 _ hb2
      have hids : (md.2.foldl (create_unmatched_step cn db dsc)
          (md.1.foldl (apply_match_step cn db dsc) ([], s))).1.map
            (fun o => o.track_id) =
          md.1.map (fun m => m.1) ++ newIds := by
        rw [hn1, hout1]
        rfl
      constructor
      · rw [hids, List.nodup_append]
        refine ⟨hmnd, nodup_of_pairwise_lt hn2, ?_⟩
        intro a ha ha2
        have h1 : a < s.track_id_count := hb a (hmsub.subset ha)
        have h2 := (hn3 a ha2).1
        rw [hs2] at h2
        have h2' : s.track_id_count ≤ a := h2
        omega
      · intro o ho
        have h0 : o.track_id ∈ md.1.map (fun m => m.1) ++ newIds := by
          rw [← hids]
          exact List.mem_map.mpr ⟨o, ho, rfl⟩
        rcases List.mem_append.mp h0 with hA | hN
        · obtain ⟨m, hm, hfst⟩ := List.mem_map.mp hA
          have hmemct : o.track_id ∈ ct.map (fun p => p.1) := hsh.1.subset hA
          obtain ⟨q, hq, hq1⟩ := List.mem_map.mp hmemct
          have hqmem : q ∈ s.tracks := by
            rw [hct] at hq
            exact List.mem_of_mem_filter hq
          have hlq : s.tracks.lookup q.1 = some q.2 :=
            tl_of_mem_nodup _ _ _ hnd hqmem
          have hl0 : s.tracks.lookup o.track_id = some q.2 := by
            rw [← hq1]
            exact hlq
          have hqc : q.2.class_name = cn := by
            rw [hct] at hq
            exact of_decide_eq_true (List.mem_filter.mp hq).2
          have hpair : (o.track_id, m.2) ∈ md.1 := by
            rw [← hfst]
            exact hm
          have hAM := apply_fold_lookup_mem cn db dsc md.1 ([], s) o.track_id m.2 q.2
            hmnd hpair hl0
          have hlt : o.track_id < s.track_id_count := hb _ (hmsub.subset hA)
          have hchars := update_chars q.2 (db.getD m.2 (Box.mk 0 0 0 0))
            (dsc.getD m.2 0) s.frame_id
          refine ⟨q.2.update (db.getD m.2 (Box.mk 0 0 0 0)) (dsc.getD m.2 0) s.frame_id,
            hlook o.track_id _ (by rw [hs2]; exact hlt) hAM, hchars.2.1, ?_⟩
          rw [hchars.2.2.2.1]
          exact hqc
        · obtain ⟨hge, hlt2⟩ := hn3 _ hN
          exact hpres _ hge hlt2

lemma uct_matched_sub (s : AdvancedMultiObjectTracker) (dets : List Detection)
    (cn : String) :
    ∀ i ∈ (uct_matched_pairs s dets cn).map (fun m => m.1),
      i ∈ (s.tracks.filter (fun p => p.2.class_name = cn)).map (fun p => p.1) := by
  intro i hi
  by_cases h1 : dets.isEmpty = true
  · rw [uct_matched_eq_empty s dets cn h1] at hi
    exact absurd hi (List.not_mem_nil i)
  · have h1' : dets.isEmpty = false := by
      revert h1
      cases dets.isEmpty <;> simp
    by_cases h2 : (s.tracks.filter (fun p => p.2.class_name = cn)).isEmpty = true
    · rw [uct_matched_eq_create s dets cn h1' h2] at hi
      exact absurd hi (List.not_mem_nil i)
    · have h2' : (s.tracks.filter (fun p => p.2.class_name = cn)).isEmpty = false := by
        revert h2
        cases (s.tracks.filter (fun p => p.2.class_name = cn)).isEmpty <;> simp
      rw [uct_matched_eq_assoc s dets cn h1' h2'] at hi
      exact (match_tracks_shape _ _ _ cn s.match_thresh).1.subset hi

lemma ite_round_lookup (s1 : AdvancedMultiObjectTracker) (dets : List Detection)
    (cn : String)
    (hb : ∀ i ∈ liveIds s1, i < s1.track_id_count)
    (hnd : (liveIds s1).Nodup)
    (tid : ℕ) (t : AdvancedTrack) (hl : s1.tracks.lookup tid = some t) :
    (tid ∉ (uct_matched_pairs s1 dets cn).map (fun m => m.1) →
      (if dets.isEmpty then (([] : List TrackedObject), s1)
       else update_class_tracks s1 dets cn).2.tracks.lookup tid = some t) ∧
    (tid ∈ (uct_matched_pairs s1 dets cn).map (fun m => m.1) →
      ∃ t2, (if dets.isEmpty then (([] : List TrackedObject), s1)
        else update_class_tracks s1 dets cn).2.tracks.lookup tid = some t2 ∧
        t2.time_since_update = 0 ∧ t2.class_name = t.class_name ∧
        t2.last_update = s1.frame_id) := by
  by_cases hde : dets.isEmpty = true
  · rw [if_pos hde, uct_matched_eq_empty s1 dets cn hde]
    exact ⟨fun _ => hl, fun hmem => absurd hmem (List.not_mem_nil tid)⟩
  · rw [if_neg hde]
    exact uct_lookup_cases s1 dets cn hb hnd tid t hl

lemma ite_round_out (s1 : AdvancedMultiObjectTracker) (dets : List Detection)
    (cn : String)
    (hb : ∀ i ∈ liveIds s1, i < s1.track_id_count)
    (hnd : (liveIds s1).Nodup) :
    (((if dets.isEmpty then (([] : List TrackedObject), s1)
        else update_class_tracks s1 dets cn).1.map (fun o => o.track_id)).Nodup) ∧
    (∀ o ∈ (if dets.isEmpty then (([] : List TrackedObject), s1)
        else update_class_tracks s1 dets cn).1,
      ∃ t2, (if dets.isEmpty then (([] : List TrackedObject), s1)
        else update_class_tracks s1 dets cn).2.tracks.lookup o.track_id = some t2 ∧
        t2.time_since_update = 0 ∧ t2.class_name = cn) := by
  by_cases hde : dets.isEmpty = true
  · rw [if_pos hde]
    exact ⟨List.nodup_nil, fun o ho => absurd ho (List.not_mem_nil o)⟩
  · rw [if_neg hde]
    exact uct_out s1 dets cn hb hnd

lemma sweep_lookup_cases (s3 : AdvancedMultiObjectTracker) (hInv3 : TrackerInv s3)
    (tid : ℕ) (t2 : AdvancedTrack) (hl : s3.tracks.lookup tid = some t2) :
    (t2.time_since_update ≤ s3.max_time_lost →
      (handle_lost_tracks s3).tracks.lookup tid = some t2) ∧
    (s3.max_time_lost < t2.time_since_update →
      (handle_lost_tracks s3).tracks.lookup tid = none ∧
      tid ∈ (handle_lost_tracks s3).removed_tracks) := by
  obtain ⟨hp, hb, hr, hd⟩ := hInv3
  have hnd := nodup_of_pairwise_lt hp
  have hkeys : (s3.tracks.map (fun p => p.1)).Nodup := hnd
  obtain ⟨h1, h2, -, -, -, -, -, -⟩ := handle_lost_spec s3 hnd hd
  constructor
  · intro hle
    rw [h1, tl_filter _ _ _ hkeys, hl]
    dsimp only
    rw [if_pos (decide_eq_true (not_lt.mpr hle))]
  · intro hgt
    constructor
    · rw [h1, tl_filter _ _ _ hkeys, hl]
      dsimp only
      rw [if_neg (fun hcon => (of_decide_eq_true hcon) hgt)]
    · rw [h2]
      exact List.mem_append.mpr (Or.inr (List.mem_map.mpr
        ⟨(tid, t2), List.mem_filter.mpr ⟨tl_mem _ _ _ hl, decide_eq_true hgt⟩, rfl⟩))

/-! ## Per-call `time_since_update` discipline across `update` (C5) -/

lemma update_tsu_cases (s : AdvancedMultiObjectTracker) (ds : List Detection)
    (hInv : TrackerInv s) (tid : ℕ) (t : AdvancedTrack)
    (hl : s.tracks.lookup tid = some t) :
    (ds.isEmpty = true →
      (s.update ds).2.tracks.lookup tid =
        some { t with time_since_update := t.time_since_update + 1 }) ∧
    (ds.isEmpty = false → tid ∉ call_matched_ids s ds →
      (t.time_since_update + 1 ≤ s.max_time_lost →
        (s.update ds).2.tracks.lookup tid =
          some { t with time_since_update := t.time_since_update + 1 }) ∧
      (s.max_time_lost < t.time_since_update + 1 →
        (s.update ds).2.tracks.lookup tid = none ∧
        tid ∈ (s.update ds).2.removed_tracks)) ∧
    (tid ∈ call_matched_ids s ds →
      ∃ t2, (s.update ds).2.tracks.lookup tid = some t2 ∧
        t2.time_since_update = 0 ∧ t2.last_update = s.frame_id + 1) := by
  have hInv1 : TrackerInv (bump_tsu s) := bump_inv s hInv
  have hb1 : ∀ i ∈ liveIds (bump_tsu s), i < (bump_tsu s).track_id_count := hInv1.2.1
  have hnd1 : (liveIds (bump_tsu s)).Nodup := nodup_of_pairwise_lt hInv1.1
  obtain ⟨-, -, -, hfb, hml2, -, -, hlk⟩ := bump_tsu_chars s
  have hl1 : (bump_tsu s).tracks.lookup tid =
      some { t with time_since_update := t.time_since_update + 1 } := by
    rw [hlk tid, hl]
    rfl
  by_cases hde : ds.isEmpty = true
  · have hcm : call_matched_ids s ds = [] := by
      unfold call_matched_ids
      rw [if_pos hde]
    refine ⟨fun _ => ?_, fun hne => absurd hde (by rw [hne]; exact Bool.false_ne_true),
      fun hmem => absurd (hcm ▸ hmem) (List.not_mem_nil tid)⟩
    unfold AdvancedMultiObjectTracker.update
    dsimp only
    rw [if_pos hde]
    exact hl1
  · unfold AdvancedMultiObjectTracker.update call_matched_ids
    simp only [if_neg hde]
    set r1 := (if (ds.filter (fun d => d.class_name = "person")).isEmpty then
        (([] : List TrackedObject), bump_tsu s)
      else update_class_tracks (bump_tsu s)
        (ds.filter (fun d => d.class_name = "person")) "person") with hr1
    set r2 := (if (ds.filter (fun d => d.class_name = "ball")).isEmpty then
        (([] : List TrackedObject), r1.2)
      else update_class_tracks r1.2
        (ds.filter (fun d => d.class_name = "ball")) "ball") with hr2
    have hs2eq : (if (ds.filter (fun d => d.class_name = "person")).isEmpty then
        bump_tsu s
      else (update_class_tracks (bump_tsu s)
        (ds.filter (fun d => d.class_name = "person")) "person").2) = r1.2 := by
      rw [hr1]
      by_cases hc : (ds.filter (fun d => d.class_name = "person")).isEmpty = true
      · rw [if_pos hc, if_pos hc]
      · rw [if_neg hc, if_neg hc]
    rw [hs2eq]
    have hph1 := phase_of_ite (bump_tsu s)
      (ds.filter (fun d => d.class_name = "person")) "person"
    rw [← hr1] at hph1
    have hInvR1 := inv_of_phase _ _ hInv1 hph1
    have hbR1 : ∀ i ∈ liveIds r1.2, i < r1.2.track_id_count := hInvR1.2.1
    have hndR1 : (liveIds r1.2).Nodup := nodup_of_pairwise_lt hInvR1.1
    have hph2 := phase_of_ite r1.2 (ds.filter (fun d => d.class_name = "ball")) "ball"
    rw [← hr2] at hph2
    have hInvR2 := inv_of_phase _ _ hInvR1 hph2
    have hmlR2 : r2.2.max_time_lost = s.max_time_lost := by
      rw [hph2.2.2.1, hph1.2.2.1, hml2]
    have hR1 := ite_round_lookup (bump_tsu s)
      (ds.filter (fun d => d.class_name = "person")) "person" hb1 hnd1 tid
      { t with time_since_update := t.time_since_update + 1 } hl1
    rw [← hr1] at hR1
    refine ⟨fun hcon => absurd hcon hde, fun _ hnot => ?_, fun hmem => ?_⟩
    · rw [List.mem_append] at hnot
      push_neg at hnot
      have h2 := hR1.1 hnot.1
      have hR2 := ite_round_lookup r1.2 (ds.filter (fun d => d.class_name = "ball"))
        "ball" hbR1 hndR1 tid { t with time_since_update := t.time_since_update + 1 } h2
      rw [← hr2] at hR2
      have h3 := hR2.1 hnot.2
      have hsweep := sweep_lookup_cases r2.2 hInvR2 tid _ h3
      constructor
      · intro hle
        exact hsweep.1 (by rw [hmlR2]; exact hle)
      · intro hgt
        exact hsweep.2 (by rw [hmlR2]; exact hgt)
    · by_cases hBm : tid ∈ (uct_matched_pairs r1.2
          (ds.filter (fun d => d.class_name = "ball")) "ball").map (fun m => m.1)
      · have hsome1 : ∃ t', r1.2.tracks.lookup tid = some t' := by
          by_cases hA : tid ∈ (uct_matched_pairs (bump_tsu s)
              (ds.filter (fun d => d.class_name = "person")) "person").map
                (fun m => m.1)
          · obtain ⟨t2, h2, -, -, -⟩ := hR1.2 hA
            exact ⟨t2, h2⟩
          · exact ⟨_, hR1.1 hA⟩
        obtain ⟨t', h1'⟩ := hsome1
        have hR2 := ite_round_lookup r1.2 (ds.filter (fun d => d.class_name = "ball"))
          "ball" hbR1 hndR1 tid t' h1'
        rw [← hr2] at hR2
        obtain ⟨t3, h3, h3t, -, h3l⟩ := hR2.2 hBm
        have hsweep := (sweep_lookup_cases r2.2 hInvR2 tid t3 h3).1
          (by rw [h3t]; exact Nat.zero_le _)
        refine ⟨t3, hsweep, h3t, ?_⟩
        rw [h3l, hph1.2.2.2.1, hfb]
      · have hA : tid ∈ (uct_matched_pairs (bump_tsu s)
            (ds.filter (fun d => d.class_name = "person")) "person").map
              (fun m => m.1) := by
          rcases List.mem_append.mp hmem with h | h
          · exact h
          · exact absurd h hBm
        obtain ⟨t2, h2, h2t, -, h2l⟩ := hR1.2 hA
        have hR2 := ite_round_lookup r1.2 (ds.filter (fun d => d.class_name = "ball"))
          "ball" hbR1 hndR1 tid t2 h2
        rw [← hr2] at hR2
        have h3 := hR2.1 hBm
        have hsweep := (sweep_lookup_cases r2.2 hInvR2 tid t2 h3).1
          (by rw [h2t]; exact Nat.zero_le _)
        refine ⟨t2, hsweep, h2t, ?_⟩
        rw [h2l, hfb]

/-! ## Output ids of one `update` call (C10) -/

lemma update_out_chars (s : AdvancedMultiObjectTracker) (ds : List Detection)
    (hInv : TrackerInv s) :
    (((s.update ds).1.map (fun o => o.track_id)).Nodup) ∧
    (∀ o ∈ (s.update ds).1, o.track_id ∈ liveIds (s.update ds).2) := by
  have hInv1 : TrackerInv (bump_tsu s) := bump_inv s hInv
  have hb1 : ∀ i ∈ liveIds (bump_tsu s), i < (bump_tsu s).track_id_count := hInv1.2.1
  have hnd1 : (liveIds (bump_tsu s)).Nodup := nodup_of_pairwise_lt hInv1.1
  unfold AdvancedMultiObjectTracker.update
  dsimp only
  split
  · dsimp only
    constructor
    · unfold predict_tracks
      rw [List.map_map]
      have hgoal : (((bump_tsu s).tracks.filter (fun p => p.2.is_active)).map
          (fun p => p.1)).Nodup := hnd1.sublist ((List.filter_sublist _).map _)
      exact hgoal
    · intro o ho
      unfold predict_tracks at ho
      obtain ⟨p, hpmem, hpo⟩ := List.mem_map.mp ho
      have ht : o.track_id = p.1 := by
        rw [← hpo]
      rw [ht]
      exact List.mem_map.mpr ⟨p, List.mem_of_mem_filter hpmem, rfl⟩
  · dsimp only
    set r1 := (if (ds.filter (fun d => d.class_name = "person")).isEmpty then
        (([] : List TrackedObject), bump_tsu s)
      else update_class_tracks (bump_tsu s)
        (ds.filter (fun d => d.class_name = "person")) "person") with hr1
    set r2 := (if (ds.filter (fun d => d.class_name = "ball")).isEmpty then
        (([] : List TrackedObject), r1.2)
      else update_class_tracks r1.2
        (ds.filter (fun d => d.class_name = "ball")) "ball") with hr2
    have hro1 := ite_round_out (bump_tsu s)
      (ds.filter (fun d => d.class_name = "person")) "person" hb1 hnd1
    rw [← hr1] at hro1
    have hph1 := phase_of_ite (bump_tsu s)
      (ds.filter (fun d => d.class_name = "person")) "person"
    rw [← hr1] at hph1
    have hInvR1 : TrackerInv r1.2 := inv_of_phase _ _ hInv1 hph1
    have hbR1 : ∀ i ∈ liveIds r1.2, i < r1.2.track_id_count := hInvR1.2.1
    have hndR1 : (liveIds r1.2).Nodup := nodup_of_pairwise_lt hInvR1.1
    have hro2 := ite_round_out r1.2 (ds.filter (fun d => d.class_name = "ball"))
      "ball" hbR1 hndR1
    rw [← hr2] at hro2
    have hph2 := phase_of_ite r1.2 (ds.filter (fun d => d.class_name = "ball")) "ball"
    rw [← hr2] at hph2
    have hInvR2 : TrackerInv r2.2 := inv_of_phase _ _ hInvR1 hph2
    have hcarry : ∀ o ∈ r1.1, ∃ t2, r2.2.tracks.lookup o.track_id = some t2 ∧
        t2.time_since_update = 0 ∧ t2.class_name = "person" := by
      intro o ho
      obtain ⟨t2, h2, h2t, h2c⟩ := hro1.2 o ho
      have hnotB : o.track_id ∉ (uct_matched_pairs r1.2
          (ds.filter (fun d => d.class_name = "ball")) "ball").map (fun m => m.1) := by
        intro hmem
        have hmemf := uct_matched_sub r1.2 _ "ball" _ hmem
        obtain ⟨q, hq, hq1⟩ := List.mem_map.mp hmemf
        have hlq : r1.2.tracks.lookup q.1 = some q.2 :=
          tl_of_mem_nodup _ _ _ hndR1 (List.mem_of_mem_filter hq)
        have hl2 : r1.2.tracks.lookup o.track_id = some q.2 := by
          rw [← hq1]
          exact hlq
        rw [h2] at hl2
        have hqc : q.2.class_name = "ball" :=
          of_decide_eq_true (List.mem_filter.mp hq).2
        have heq2 : t2 = q.2 := by
          injection hl2
        rw [← heq2] at hqc
        rw [h2c] at hqc
        exact absurd hqc (by decide)
      have hpres := (ite_round_lookup r1.2
        (ds.filter (fun d => d.class_name = "ball")) "ball" hbR1 hndR1
        o.track_id t2 h2).1 hnotB
      rw [← hr2] at hpres
      exact ⟨t2, hpres, h2t, h2c⟩
    constructor
    · rw [List.map_append, List.nodup_append]
      refine ⟨hro1.1, hro2.1, ?_⟩
      intro a ha ha2
      obtain ⟨o1, ho1, ho1a⟩ := List.mem_map.mp ha
      obtain ⟨o2, ho2, ho2a⟩ := List.mem_map.mp ha2
      obtain ⟨t2, hl2, -, hc2⟩ := hcarry o1 ho1
      obtain ⟨t3, hl3, -, hc3⟩ := hro2.2 o2 ho2
      rw [ho1a] at hl2
      rw [ho2a] at hl3
      rw [hl2] at hl3
      have heq3 : t2 = t3 := by
        injection hl3
      rw [← heq3] at hc3
      rw [hc2] at hc3
      exact absurd hc3 (by decide)
    · intro o ho
      have hloc : ∃ t2, r2.2.tracks.lookup o.track_id = some t2 ∧
          t2.time_since_update = 0 := by
        rcases List.mem_append.mp ho with h | h
        · obtain ⟨t2, hl2, h2t, -⟩ := hcarry o h
          exact ⟨t2, hl2, h2t⟩
        · obtain ⟨t2, hl2, h2t, -⟩ := hro2.2 o h
          exact ⟨t2, hl2, h2t⟩
      obtain ⟨t2, hl2, h2t⟩ := hloc
      have hkeep := (sweep_lookup_cases r2.2 hInvR2 o.track_id t2 hl2).1
        (by rw [h2t]; exact Nat.zero_le _)
      exact (tl_isSome_iff _ _).mp (by rw [hkeep]; rfl)

/-- C5: along any run of the tracker, every `update` call first increments
`time_since_update` of every live track (also on an empty detection list,
where the bumped value is returned unswept); during the call the field is
reset to 0 exactly for the tracks matched to a detection, while an
unmatched track keeps the incremented value — unless that incremented
value exceeds `max_time_lost`, in which case the lost-track sweep of the
same call deletes the track and records its id. -/
theorem time_since_update_increment_and_reset (track_thresh match_thresh : ℚ)
    (max_time_lost min_track_length : ℕ) (dss : List (List Detection))
    (ds : List Detection) (tid : ℕ) (t : AdvancedTrack)
    (hl : (runTrackerP track_thresh match_thresh max_time_lost min_track_length
      dss).tracks.lookup tid = some t) :
    (ds.isEmpty = true →
      ((runTrackerP track_thresh match_thresh max_time_lost min_track_length
          dss).update ds).2.tracks.lookup tid =
        some { t with time_since_update := t.time_since_update + 1 }) ∧
    (ds.isEmpty = false →
      tid ∉ call_matched_ids (runTrackerP track_thresh match_thresh max_time_lost
        min_track_length dss) ds →
      (t.time_since_update + 1 ≤ max_time_lost →
        ((runTrackerP track_thresh match_thresh max_time_lost min_track_length
            dss).update ds).2.tracks.lookup tid =
          some { t with time_since_update := t.time_since_update + 1 }) ∧
      (max_time_lost < t.time_since_update + 1 →
        ((runTrackerP track_thresh match_thresh max_time_lost min_track_length
            dss).update ds).2.tracks.lookup tid = none ∧
        tid ∈ ((runTrackerP track_thresh match_thresh max_time_lost
          min_track_length dss).update ds).2.removed_tracks)) ∧
    (tid ∈ call_matched_ids (runTrackerP track_thresh match_thresh max_time_lost
        min_track_length dss) ds →
      ∃ t2, ((runTrackerP track_thresh match_thresh max_time_lost min_track_length
          dss).update ds).2.tracks.lookup tid = some t2 ∧
        t2.time_since_update = 0 ∧
        t2.last_update = (runTrackerP track_thresh match_thresh max_time_lost
          min_track_length dss).frame_id + 1) := by
  have h := update_tsu_cases _ ds
    (runP_inv track_thresh match_thresh max_time_lost min_track_length dss) tid t hl
  rw [(runP_fields track_thresh match_thresh max_time_lost min_track_length dss).1] at h
  exact h

/-- Witness for C5: a person track created on the first call is matched by
the identical detection on the second call, and its `time_since_update`
comes back as 0 with `last_update` advanced to the new frame. -/
theorem time_since_update_increment_and_reset_witness :
    ((runTrackerP (3/10) (7/10) 15 3 [[personDet]]).tracks.lookup 0 =
      some (AdvancedTrack.init 0 (boxAt 0 0 5) (9/10) 1 "person")) ∧
    (0 ∈ call_matched_ids (runTrackerP (3/10) (7/10) 15 3 [[personDet]])
      [personDet]) ∧
    (∃ t2, (((runTrackerP (3/10) (7/10) 15 3 [[personDet]]).update
        [personDet]).2.tracks.lookup 0 = some t2) ∧
      t2.time_since_update = 0 ∧
      t2.last_update = (runTrackerP (3/10) (7/10) 15 3 [[personDet]]).frame_id + 1) :=
  ⟨by decide!, by decide!,
    (time_since_update_increment_and_reset (3/10) (7/10) 15 3 [[personDet]]
      [personDet] 0 (AdvancedTrack.init 0 (boxAt 0 0 5) (9/10) 1 "person")
      (by decide!)).2.2 (by decide!)⟩

/-- C10: the tracked-object list returned by a single `update` call on any
reachable tracker state carries pairwise-distinct `track_id`s, and every
reported id is still present in the live track table when the call
returns — the lost-track sweep of that same call never deletes an emitted
track. -/
theorem update_output_ids (track_thresh match_thresh : ℚ)
    (max_time_lost min_track_length : ℕ) (dss : List (List Detection))
    (ds : List Detection) :
    ((((runTrackerP track_thresh match_thresh max_time_lost min_track_length
        dss).update ds).1.map (fun o => o.track_id)).Nodup) ∧
    (∀ o ∈ ((runTrackerP track_thresh match_thresh max_time_lost min_track_length
        dss).update ds).1,
      o.track_id ∈ liveIds ((runTrackerP track_thresh match_thresh max_time_lost
        min_track_length dss).update ds).2) :=
  update_out_chars _ ds
    (runP_inv track_thresh match_thresh max_time_lost min_track_length dss)

/-- Witness for C10: the person track emitted by the first call on a fresh
tracker is still live when the call returns. -/
theorem update_output_ids_witness :
    ((emit_tracked 0 (AdvancedTrack.init 0 (boxAt 0 0 5) (9/10) 1 "person") 1
        "person") ∈
      ((runTrackerP (3/10) (7/10) 15 3 []).update [personDet, ballDet]).1) ∧
    ((emit_tracked 0 (AdvancedTrack.init 0 (boxAt 0 0 5) (9/10) 1 "person") 1
        "person").track_id ∈
      liveIds ((runTrackerP (3/10) (7/10) 15 3 []).update [personDet, ballDet]).2) :=
  ⟨by decide!,
    (update_output_ids (3/10) (7/10) 15 3 [] [personDet, ballDet]).2 _ (by decide!)⟩

/-! ## Closing a possession span (C4) -/

lemma end_possession_chars (s : PState) (frame_id : ℕ) (c : Possession)
    (h : s.current_possession = some c) :
    (end_possession s frame_id).current_possession = none ∧
    (s.frame_threshold ≤ (frame_id : ℤ) - (c.start_frame : ℤ) →
      (end_possession s frame_id).possession_events =
        s.possession_events ++
          [{ c with end_frame := some frame_id,
                    duration := (frame_id : ℤ) - (c.start_frame : ℤ) }] ∧
      (end_possession s frame_id).team_possession_time c.team =
        s.team_possession_time c.team +
          (((frame_id : ℤ) - (c.start_frame : ℤ) : ℤ) : ℚ) / s.fps ∧
      (end_possession s frame_id).total_possession_time =
        s.total_possession_time +
          (((frame_id : ℤ) - (c.start_frame : ℤ) : ℤ) : ℚ) / s.fps) ∧
    ((frame_id : ℤ) - (c.start_frame : ℤ) < s.frame_threshold →
      (end_possession s frame_id).possession_events = s.possession_events ∧
      (end_possession s frame_id).team_possession_time = s.team_possession_time ∧
      (end_possession s frame_id).total_possession_time = s.total_possession_time) := by
  unfold end_possession
  rw [h]
  dsimp only
  split
  · rename_i hge
    refine ⟨rfl, fun _ => ⟨rfl, ?_, rfl⟩, fun hlt => absurd hge (not_le.mpr hlt)⟩
    dsimp only
    rw [if_pos rfl]
  · rename_i hlt
    rw [not_le] at hlt
    exact ⟨rfl, fun hge => absurd hge (not_le.mpr hlt),
      fun _ => ⟨rfl, rfl, rfl⟩⟩

lemma end_possession_events_or (s : PState) (frame_id : ℕ) :
    (end_possession s frame_id).possession_events = s.possession_events ∨
    ∃ c, (end_possession s frame_id).possession_events =
      s.possession_events ++ [c] := by
  unfold end_possession
  cases s.current_possession with
  | none => exact Or.inl rfl
  | some c =>
    dsimp only
    split
    · exact Or.inr ⟨_, rfl⟩
    · exact Or.inl rfl

lemma start_possession_events (s : PState) (player : TrackEntry) (frame_id : ℕ) :
    (start_possession s player frame_id).possession_events =
      s.possession_events := rfl

lemma update_possession_events (s : PState) (frame_id : ℕ) :
    (update_possession s frame_id).possession_events = s.possession_events := by
  unfold update_possession
  cases s.current_possession with
  | none => rfl
  | some c =>
    dsimp only
    cases s.player_tracks.find? (fun p =>
        p.frame_id = frame_id ∧ p.track_id = c.player_id) with
    | none => rfl
    | some player => rfl

lemma detect_passes_events (s : PState) (frame_id : ℕ) :
    (detect_passes s frame_id).possession_events = s.possession_events := by
  unfold detect_passes
  split
  · rfl
  · rfl

lemma analyze_possession_events_or (s : PState) (frame_id : ℕ) :
    (analyze_possession s frame_id).possession_events = s.possession_events ∨
    ∃ c, (analyze_possession s frame_id).possession_events =
      s.possession_events ++ [c] := by
  unfold analyze_possession
  cases s.ball_tracks.getLast? with
  | none => exact Or.inl rfl
  | some current_ball =>
    dsimp only
    split
    · exact Or.inl rfl
    · cases closestPlayer s current_ball.center frame_id with
      | none => exact end_possession_events_or s frame_id
      | some best =>
        obtain ⟨closest_player, min_distance2⟩ := best
        dsimp only
        split
        · cases hc : s.current_possession with
          | none =>
            rw [start_possession_events]
            exact Or.inl rfl
          | some c =>
            dsimp only
            split
            · rw [start_possession_events]
              exact end_possession_events_or s frame_id
            · rw [update_possession_events]
              exact Or.inl rfl
        · exact end_possession_events_or s frame_id

lemma update_tracks_events_or (s : PState) (objs : List TObj) (frame_id : ℕ) :
    (s.update_tracks objs frame_id).possession_events = s.possession_events ∨
    ∃ c, (s.update_tracks objs frame_id).possession_events =
      s.possession_events ++ [c] := by
  unfold PState.update_tracks
  dsimp only
  rw [detect_passes_events]
  have happend : ∀ (l : List TObj) (st : PState),
      (l.foldl (fun st2 player =>
        { st2 with player_tracks := st2.player_tracks ++ [mkEntry player frame_id] })
        st).possession_events = st.possession_events := by
    intro l
    induction l with
    | nil => intro st; rfl
    | cons a l ih =>
      intro st
      rw [List.foldl_cons, ih]
  have hball : ∀ st : PState,
      (match objs.filter (fun o : TObj => o.class_name = "ball") with
       | [] => st
       | hd :: tl =>
         { st with ball_tracks := st.ball_tracks ++ [mkEntry (pyMaxByScore hd tl) frame_id] }).possession_events
        = st.possession_events := by
    intro st
    cases objs.filter (fun o => o.class_name = "ball") with
    | nil => rfl
    | cons hd tl => rfl
  rcases analyze_possession_events_or
    ((objs.filter (fun o => o.class_name = "person")).foldl (fun st2 player =>
      { st2 with player_tracks := st2.player_tracks ++ [mkEntry player frame_id] })
      (match objs.filter (fun o => o.class_name = "ball") with
       | [] => s
       | hd :: tl =>
         { s with ball_tracks := s.ball_tracks ++ [mkEntry (pyMaxByScore hd tl) frame_id] }))
    frame_id with h | ⟨c, h⟩
  · rw [h, happend, hball]
    exact Or.inl rfl
  · rw [h, happend, hball]
    exact Or.inr ⟨c, rfl⟩

/-- **C4 (amended).** When the open span closes it is appended to the
possession log — and its team's and the total possession time incremented
by `duration / fps` — exactly when its duration
`end_frame − start_frame` reaches `frame_threshold =
int(possession_threshold × fps)` (the truncated product, 15 at the
default 0.5 s × 30 fps); a shorter span is discarded with no change to the
log or the times, and each `update_tracks` call appends at most one span,
exactly at the moment it closes. -/
theorem possession_span_logging_threshold :
    (∀ (s : PState) (frame_id : ℕ) (c : Possession),
      s.current_possession = some c →
      (end_possession s frame_id).current_possession = none ∧
      (s.frame_threshold ≤ (frame_id : ℤ) - (c.start_frame : ℤ) →
        (end_possession s frame_id).possession_events =
          s.possession_events ++
            [{ c with end_frame := some frame_id,
                      duration := (frame_id : ℤ) - (c.start_frame : ℤ) }] ∧
        (end_possession s frame_id).team_possession_time c.team =
          s.team_possession_time c.team +
            (((frame_id : ℤ) - (c.start_frame : ℤ) : ℤ) : ℚ) / s.fps ∧
        (end_possession s frame_id).total_possession_time =
          s.total_possession_time +
            (((frame_id : ℤ) - (c.start_frame : ℤ) : ℤ) : ℚ) / s.fps) ∧
      ((frame_id : ℤ) - (c.start_frame : ℤ) < s.frame_threshold →
        (end_possession s frame_id).possession_events = s.possession_events ∧
        (end_possession s frame_id).team_possession_time = s.team_possession_time ∧
        (end_possession s frame_id).total_possession_time =
          s.total_possession_time)) ∧
    (∀ (s : PState) (objs : List TObj) (frame_id : ℕ),
      (s.update_tracks objs frame_id).possession_events = s.possession_events ∨
      ∃ c, (s.update_tracks objs frame_id).possession_events =
        s.possession_events ++ [c]) :=
  ⟨end_possession_chars, update_tracks_events_or⟩

/-- Witness for the amended C4: closing a 19-frame span at the default
threshold of 15 frames logs it once. -/
theorem possession_span_logging_threshold_witness :
    (end_possession possessionWitnessState 20).current_possession = none ∧
    (end_possession possessionWitnessState 20).possession_events =
      possessionWitnessState.possession_events ++
        [{ possessionWitnessSpan with
             end_frame := some 20,
             duration := ((20 : ℕ) : ℤ) - (possessionWitnessSpan.start_frame : ℤ) }] :=
  ⟨(possession_span_logging_threshold.1 possessionWitnessState 20
      possessionWitnessSpan rfl).1,
   ((possession_span_logging_threshold.1 possessionWitnessState 20
      possessionWitnessSpan rfl).2.1 (by decide!)).1⟩

/-- **C4 (counterexample).** With `fps = 3` and threshold `0.5 s`
(`frame_threshold = int(1.5) = 1`), a span of duration 1 frame is logged
although `1 < 0.5 × 3`, so the log condition is the truncated
`frame_threshold`, not `possession_threshold × fps` itself. -/
theorem short_span_logged_below_seconds_threshold :
    fractionalThresholdState.fps = 3 ∧
    fractionalThresholdState.possession_threshold = 1/2 ∧
    fractionalThresholdState.frame_threshold = 1 ∧
    fractionalThresholdState.possession_events.map (fun p => p.duration) = [1] ∧
    ((1 : ℚ) <
      fractionalThresholdState.possession_threshold * fractionalThresholdState.fps) := by
  decide!

/-! ## Pass detection (C2) -/

/-- **C2 (counterexample).** A default-parameter run (`fps = 30`,
threshold `0.5 s`) logging two consecutive spans — A's ending at frame 18,
B's starting at frame 21 (= 18 + 3) with B's start position 30 px from
A's end position — records no pass event at all: by the time B's span is
logged, A's span has left the strict 5-frame recency window of
`_detect_passes`. -/
theorem default_params_no_pass_recorded :
    passScenarioState.fps = 30 ∧
    passScenarioState.possession_threshold = 1/2 ∧
    passScenarioState.possession_events.map
      (fun p => (p.player_id, p.start_frame, p.end_frame)) =
      [(1, 1, some 18), (2, 21, some 37)] ∧
    passScenarioState.possession_events.map
      (fun p => p.positions.getLast?.getD (0, 0)) = [(0, 0), (30, 0)] ∧
    passScenarioState.possession_events.map
      (fun p => p.positions.head?.getD (0, 0)) = [(0, 0), (30, 0)] ∧
    dist2 (0, 0) (30, 0) ≤ passScenarioState.pass_threshold_distance ^ 2 ∧
    passScenarioState.pass_events = [] := by
  decide!

/-- **C2 (amended).** A qualifying pair yields a pass event only at a call
whose recency filter retains both spans; with `fps = 2`
(`frame_threshold = 1`) the 3-frame/30 px pair produces exactly one pass
A→B, while a 6-frame gap or an 80 px distance produces none. -/
theorem pass_detection_recency_window :
    shortSpanPassState.possession_events.map
      (fun p => (p.player_id, p.start_frame, p.end_frame)) =
      [(1, 1, some 3), (2, 6, some 7)] ∧
    shortSpanPassState.pass_events.map
      (fun e => (e.from_player, e.to_player, e.frame_id, e.distance2)) =
      [(1, 2, 3, 900)] ∧
    shortSpanGapState.possession_events.map
      (fun p => (p.player_id, p.start_frame, p.end_frame)) =
      [(1, 1, some 3), (2, 9, some 10)] ∧
    shortSpanGapState.pass_events = [] ∧
    shortSpanFarState.possession_events.map
      (fun p => (p.player_id, p.start_frame, p.end_frame)) =
      [(1, 1, some 3), (2, 6, some 7)] ∧
    shortSpanFarState.possession_events.map
      (fun p => p.positions.head?.getD (0, 0)) = [(0, 0), (80, 0)] ∧
    dist2 (0, 0) (80, 0) > shortSpanFarState.pass_threshold_distance ^ 2 ∧
    shortSpanFarState.pass_events = [] := by
  decide!

/-! ## Reset restores the zero-state statistics (C6) -/

lemma reset_possession_stats (s : PState) :
    get_possession_stats s.reset = fallbackPossessionStats := by
  unfold get_possession_stats PState.reset
  dsimp only
  norm_num

lemma init_possession_stats (fps possession_threshold : ℚ) :
    get_possession_stats (PState.init fps possession_threshold) =
      fallbackPossessionStats := by
  unfold get_possession_stats PState.init
  dsimp only
  norm_num

lemma reset_pass_stats (env : PyEnv) (s : PState) :
    get_pass_stats env s.reset = fallbackPassStats := by
  unfold get_pass_stats PState.reset
  dsimp only
  norm_num

lemma init_pass_stats (env : PyEnv) (fps possession_threshold : ℚ) :
    get_pass_stats env (PState.init fps possession_threshold) =
      fallbackPassStats := by
  unfold get_pass_stats PState.init
  dsimp only
  norm_num

/-- **C6.** After any sequence of `update_tracks` calls, `reset()` brings
`get_possession_stats` and `get_pass_stats` back to exactly the values a
freshly constructed analyzer returns before any data is ingested (the
balanced fallback dicts), for every ambient clock/randomness/set-order
environment. -/
theorem reset_restores_zero_stats (fps possession_threshold : ℚ)
    (calls : List (List TObj × ℕ)) (env : PyEnv) :
    get_possession_stats (runAnalyzer fps possession_threshold calls).reset =
      get_possession_stats (PState.init fps possession_threshold) ∧
    get_pass_stats env (runAnalyzer fps possession_threshold calls).reset =
      get_pass_stats env (PState.init fps possession_threshold) := by
  rw [reset_possession_stats, init_possession_stats,
      reset_pass_stats, init_pass_stats]
  exact ⟨rfl, rfl⟩

end SoccerYolo
